import Mathlib

/-!
Shallow embedding of the provider audit orchestration engine of
`src/src/audit_engine.cpp` (namespace `llaudit`), together with theorems
settling the frozen claims about it.

Modelling conventions, fixed once here:
* C++ `std::string` is Lean `String`; `std::tolower` in the C locale lowers
  only the ASCII letters, embedded as `toLowerChar`.  `std::string::find`
  substring search is `strContains`.
* `std::set<std::string>` is used by the source only to deduplicate and then
  iterate in sorted order; it is embedded as `dedupSort`, insertion into a
  sorted duplicate-free list under the byte-lexicographic order `strLt`.
* `nlohmann::json` values are the inductive `Json` (objects keep their
  sorted-unique key lists as association lists; only integer numbers carry a
  value, since the source only ever reads `is_number_integer` integers —
  any other number is the valueless constructor `Json.flt`).
* The abstract Sender (§6 of the spec) is an oracle `send : Nat → HttpResponse`
  indexed by the ordinal of the request in program order; request payloads and
  request headers flow only into the network and are therefore not part of the
  observable state.  `HttpResponse` carries both the raw body text (used for
  snippets) and its parse `bodyJson`; `ParseJson` maps malformed input to the
  empty JSON object, so every body has a `Json` image and `bodyJson` ranges
  over exactly the values `ParseJson` can produce.
* The shared atomic cancellation flag is an oracle `cancel : Nat → Bool`
  indexed by the ordinal of the `load()` in program order.
* Counters are `Nat` (they only count upward from 0); statuses and
  latencies are `Int` (sentinel -1 occurs).
-/

/-- `std::tolower` on an unsigned char in the C locale: only ASCII A-Z move. -/
def toLowerChar (c : Char) : Char :=
  if 'A' ≤ c ∧ c ≤ 'Z' then Char.ofNat (c.toNat + 32) else c

/-- `ToLower` of audit_engine.cpp: lower-case every character. -/
def ToLower (s : String) : String :=
  String.mk (s.data.map toLowerChar)

/-- `pat` is a prefix of `hay` (character lists). -/
def leadMatch : List Char → List Char → Bool
  | [], _ => true
  | _ :: _, [] => false
  | a :: as, b :: bs => a = b && leadMatch as bs

/-- `pat` occurs somewhere in the list (empty pattern always occurs). -/
def subMatch (pat : List Char) : List Char → Bool
  | [] => leadMatch pat []
  | c :: rest => leadMatch pat (c :: rest) || subMatch pat rest

/-- `hay.find(pat) != std::string::npos` of C++. -/
def strContains (hay pat : String) : Bool :=
  subMatch pat.data hay.data

/-- Byte-lexicographic strict order on character lists, as `std::string`'s
`operator<` compares. -/
def strLtB : List Char → List Char → Bool
  | [], [] => false
  | [], _ :: _ => true
  | _ :: _, [] => false
  | a :: as, b :: bs => if a.toNat = b.toNat then strLtB as bs else decide (a.toNat < b.toNat)

/-- `operator<` on `std::string`. -/
def strLt (a b : String) : Bool := strLtB a.data b.data

/-- Insert into a sorted duplicate-free list, keeping one copy of equal
keys — one `std::set<std::string>::insert`. -/
def insSorted (x : String) : List String → List String
  | [] => [x]
  | y :: ys => if x = y then y :: ys else if strLt x y then x :: y :: ys else y :: insSorted x ys

/-- Pour a list into a `std::set<std::string>` and read it back in order:
sorted unique elements. -/
def dedupSort (l : List String) : List String :=
  l.foldl (fun acc x => insSorted x acc) []

/-- `Snippet` of audit_engine.cpp: truncate to `limit` (C++ counts bytes, here
characters; every string a claim touches is ASCII so the two agree). -/
def Snippet (s : String) (limit : Nat) : String :=
  if s.length ≤ limit then s else String.mk (s.data.take limit)

mutual
/-- `nlohmann::json`: objects hold their keys sorted and unique, as
`nlohmann`'s `std::map` storage does. -/
inductive Json where
  | null
  | jbool (b : Bool)
  | num (n : Int)
  | flt
  | str (s : String)
  | arr (items : JArr)
  | obj (entries : JObj)
inductive JArr where
  | nil
  | cons (hd : Json) (tl : JArr)
inductive JObj where
  | nil
  | cons (key : String) (val : Json) (tl : JObj)
end

/-- The elements of a JSON array as a Lean list. -/
def JArr.toList : JArr → List Json
  | .nil => []
  | .cons hd tl => hd :: tl.toList

/-- `object.contains(k)` + `object[k]`: first (only) binding of the key. -/
def jObjGet : JObj → String → Option Json
  | .nil, _ => none
  | .cons k v rest, key => if k = key then some v else jObjGet rest key

/-- `j.contains(k) ? j[k] : none` for an object `j`, `none` on any other shape. -/
def jGet : Json → String → Option Json
  | .obj kvs, k => jObjGet kvs k
  | _, _ => none

/-- Key of `RateLimitHeaders`'s filter: the key as the function receives it
contains one of the four marker substrings.  NOTE: the source does not
lower-case `k` before the `find` calls. -/
def rlKeyHit (k : String) : Bool :=
  strContains k "rate" || strContains k "limit" || strContains k "quota" ||
    strContains k "retry"

/-- `RateLimitHeaders` of audit_engine.cpp: keep the header entries whose key
(as given) contains "rate", "limit", "quota" or "retry".  A header map is an
association list with sorted unique keys, which `filter` preserves. -/
def RateLimitHeaders (headers : List (String × String)) : List (String × String) :=
  headers.filter (fun kv => rlKeyHit kv.1)

/-- What the spec's words ask of `RateLimitHeaders`: match on the lower-cased
key.  Stated from the spec, to compare with the source's function. -/
def specLowerRateLimitHeaders (headers : List (String × String)) : List (String × String) :=
  headers.filter (fun kv => rlKeyHit (ToLower kv.1))

/-- One array element's contribution in `ExtractModelIds`: its string value,
else its `id` string, else its `name` string (an `id` of a non-string type
falls through to `name`, as the C++ `else if` does). -/
def itemIdOf : Json → Option String
  | .str s => some s
  | .obj kvs =>
    match jObjGet kvs "id" with
    | some (.str s) => some s
    | _ =>
      match jObjGet kvs "name" with
      | some (.str s) => some s
      | _ => none
  | _ => none

/-- The `add` lambda of `ExtractModelIds`: ids of an array value, nothing for
any other shape. -/
def addIds (arr : Json) : List String :=
  match arr with
  | .arr xs => xs.toList.filterMap itemIdOf
  | _ => []

/-- Every id `ExtractModelIds` pushes before deduplication, in push order:
a top-level array, else an object's `data` then `models` arrays. -/
def modelIdCandidates : Json → List String
  | .arr xs => addIds (.arr xs)
  | .obj kvs =>
    (match jObjGet kvs "data" with | some d => addIds d | none => []) ++
      (match jObjGet kvs "models" with | some m => addIds m | none => [])
  | _ => []

/-- `ExtractModelIds` of audit_engine.cpp: collect, then pour through a
`std::set` (sorted unique). -/
def ExtractModelIds (j : Json) : List String :=
  dedupSort (modelIdCandidates j)

/-- The key test of `ExtractMaxContext` on an already lower-cased key. -/
def isContextKey (k : String) : Bool :=
  strContains k "context" || strContains k "inputtokenlimit" ||
    strContains k "contextwindow" ||
    (strContains k "token" && !strContains k "output" && !strContains k "completion")

mutual
/-- The recursive `scan` lambda of `ExtractMaxContext`, threading `best`.
The `key` argument is carried exactly as the source carries `key_name`
(passed down through arrays, never read by the candidate test). -/
def scanJ : Json → String → Int → Int
  | .obj kvs, _, best => scanObj kvs best
  | .arr xs, key, best => scanArr xs key best
  | _, _, best => best
/-- `scan` over an object's entries, in order. -/
def scanObj : JObj → Int → Int
  | .nil, best => best
  | .cons k v rest, best =>
    let kl := ToLower k
    let b1 := match v with
      | .num n => if isContextKey kl then max best n else best
      | _ => best
    scanObj rest (scanJ v kl b1)
/-- `scan` over an array's items, in order. -/
def scanArr : JArr → String → Int → Int
  | .nil, _, best => best
  | .cons item rest, key, best => scanArr rest key (scanJ item key best)
end

/-- `ExtractMaxContext` of audit_engine.cpp: `best` starts at the sentinel -1.
Total by construction (structural recursion over the finite tree). -/
def ExtractMaxContext (j : Json) : Int := scanJ j "" (-1)

mutual
/-- The integer values `scanJ` treats as candidates, in visit order
(defined independently of the threaded-`best` recursion, to compare). -/
def candsJ : Json → List Int
  | .obj kvs => candsObj kvs
  | .arr xs => candsArr xs
  | _ => []
/-- Candidates of an object's entries. -/
def candsObj : JObj → List Int
  | .nil => []
  | .cons k v rest =>
    (match v with
     | .num n => if isContextKey (ToLower k) then [n] else []
     | _ => []) ++ candsJ v ++ candsObj rest
/-- Candidates of an array's items. -/
def candsArr : JArr → List Int
  | .nil => []
  | .cons item rest => candsJ item ++ candsArr rest
end

mutual
/-- Number of nested `scan` invocations `ExtractMaxContext` makes along the
deepest path of the value: one frame for the node itself, plus the deepest
child.  This is the recursion depth of the source's `scan`. -/
def depthJ : Json → Nat
  | .obj kvs => 1 + depthObj kvs
  | .arr xs => 1 + depthArr xs
  | _ => 1
/-- Deepest `scan` recursion among an object's values. -/
def depthObj : JObj → Nat
  | .nil => 0
  | .cons _ v rest => max (depthJ v) (depthObj rest)
/-- Deepest `scan` recursion among an array's items. -/
def depthArr : JArr → Nat
  | .nil => 0
  | .cons item rest => max (depthJ item) (depthArr rest)
end

/-- A JSON document of `n` nested objects `{"x": {"x": ... 1 ...}}`. -/
def nestObj : Nat → Json
  | 0 => .num 1
  | n + 1 => .obj (.cons "x" (nestObj n) .nil)

/-- The `consider` lambda of `ExtractCapabilities`: the capability tags one
text contributes, by case-insensitive keyword buckets. -/
def considerTags (text : String) : List String :=
  let t := ToLower text
  (if strContains t "vision" || strContains t "vl" || strContains t "image" then
    ["vision/image"] else []) ++
  (if strContains t "reason" || strContains t "thinking" then ["reasoning"] else []) ++
  (if strContains t "coder" || strContains t "code" then ["coding"] else []) ++
  (if strContains t "embed" then ["embeddings"] else []) ++
  (if strContains t "audio" || strContains t "speech" then ["audio"] else []) ++
  (if strContains t "rerank" then ["reranking"] else []) ++
  (if strContains t "tool" || strContains t "function" then ["tool_use"] else [])

mutual
/-- The `walk` lambda of `ExtractCapabilities`: every object key and every
string value of the tree, in visit order. -/
def textsJ : Json → List String
  | .obj kvs => textsObj kvs
  | .arr xs => textsArr xs
  | _ => []
/-- Texts of an object's entries: the key, the value when it is a string,
then the subtree. -/
def textsObj : JObj → List String
  | .nil => []
  | .cons k v rest =>
    (k :: (match v with | .str s => [s] | _ => [])) ++ textsJ v ++ textsObj rest
/-- Texts of an array's items. -/
def textsArr : JArr → List String
  | .nil => []
  | .cons item rest => textsJ item ++ textsArr rest
end

/-- `ExtractCapabilities` of audit_engine.cpp: tags of every model id and of
every key/string in the tree, poured through a `std::set` (sorted unique). -/
def ExtractCapabilities (model_ids : List String) (raw : Json) : List String :=
  dedupSort (((model_ids ++ textsJ raw).map considerTags).flatten)

-- quick sanity examples (deleted from nothing: they are plain theorems)
example : ToLower "AbC-Z" = "abc-z" := by decide
example : strContains "x-ratelimit" "limit" = true := by decide
example : strContains "X-RateLimit" "limit" = false := by decide
example : ExtractModelIds (.obj (.cons "data"
    (.arr (.cons (.str "b") (.cons (.str "a") (.cons (.str "b") .nil)))) .nil)) =
    ["a", "b"] := by decide
example : ExtractMaxContext (.obj (.cons "Max_Context_Tokens" (.num 42)
    (.cons "output_tokens" (.num 99) .nil))) = 42 := by decide
example : ExtractCapabilities ["gpt-vision"] .null = ["vision/image"] := by decide

/-- The Sender result (`HttpResponse` of audit_engine.cpp).  `bodyText` is the
raw body; `bodyJson` its `ParseJson` image (malformed text parses to the empty
object, so `bodyJson` is total). -/
structure HttpResponse where
  status : Int := -1
  latency_ms : Int := -1
  bodyText : String := ""
  bodyJson : Json := .obj .nil
  headers : List (String × String) := []
  error : String := ""

/-- `RequestTrace` of audit_engine.h, one HTTP interaction. -/
structure RequestTrace where
  step : String := ""
  method : String := ""
  url : String := ""
  status : Int := -1
  latency_ms : Int := -1
  rate_limit_headers : List (String × String) := []
  response_snippet : String := ""
  error : String := ""

/-- `ModelCheck` of audit_engine.h, one liveness probe. -/
structure ModelCheck where
  model : String := ""
  status : Int := -1
  latency_ms : Int := -1
  working : Bool := false
  error_snippet : String := ""

/-- `PromptTest` of audit_engine.h, one scored-suite prompt. -/
structure PromptTest where
  name : String := ""
  status : Int := -1
  latency_ms : Int := -1
  rate_limit_headers : List (String × String) := []
  answer : String := ""
  error_snippet : String := ""

/-- `ProviderAudit` of audit_engine.h with its member initializers. -/
structure ProviderAudit where
  provider_id : String := ""
  provider_name : String := ""
  api_key : String := ""
  key_supplied : Bool := false
  auth_status : Int := -1
  models_status : Int := -1
  auth_latency_ms : Int := -1
  models_latency_ms : Int := -1
  auth_rate_limit_headers : List (String × String) := []
  models_rate_limit_headers : List (String × String) := []
  sample_models : List String := []
  capability_tags : List String := []
  working_models : List String := []
  failing_models : List String := []
  model_used : String := ""
  max_context_seen : Int := -1
  model_checks : List ModelCheck := []
  prompt_tests : List PromptTest := []
  request_traces : List RequestTrace := []
  score_reasoning : Nat := 0
  score_coding : Nat := 0
  score_axui : Nat := 0
  score_total : Nat := 0
  total_requests : Nat := 0
  successful_requests : Nat := 0
  failed_requests : Nat := 0
  avg_latency_ms : Int := -1
  notes : String := ""
  error_snippet : String := ""
  raw_payload : List (String × Json) := []

/-- A freshly constructed `ProviderAudit p;`. -/
def initProviderAudit : ProviderAudit := {}

/-- `AuditReport` of audit_engine.h.  Log lines are modelled without their
wall-clock timestamp prefix (`NowUtc` is outside the embedding), and
`generated_at_utc` is left empty for the same reason. -/
structure AuditReport where
  generated_at_utc : String := ""
  run_logs : List String := []
  providers : List ProviderAudit := []

/-- `ExtractOpenAIText` of audit_engine.cpp: `choices[0].message.content`,
a plain string or a list of `{text}` parts each followed by a newline. -/
def joinTextParts : List Json → String
  | [] => ""
  | p :: rest =>
    (match p with
     | .obj kvs =>
       match jObjGet kvs "text" with
       | some (.str s) => s ++ "\n"
       | _ => ""
     | _ => "") ++ joinTextParts rest

/-- `ExtractOpenAIText` of audit_engine.cpp. -/
def ExtractOpenAIText (j : Json) : String :=
  match j with
  | .obj kvs =>
    match jObjGet kvs "choices" with
    | some (.arr (.cons choice _)) =>
      (match choice with
       | .obj ckvs =>
         match jObjGet ckvs "message" with
         | some (.obj mkvs) =>
           (match jObjGet mkvs "content" with
            | some (.str s) => s
            | some (.arr parts) => joinTextParts parts.toList
            | _ => "")
         | _ => ""
       | _ => "")
    | _ => ""
  | _ => ""

/-- `ExtractGoogleText` of audit_engine.cpp: `candidates[0].content.parts`
joined with newlines. -/
def ExtractGoogleText (j : Json) : String :=
  match j with
  | .obj kvs =>
    match jObjGet kvs "candidates" with
    | some (.arr (.cons c0 _)) =>
      (match c0 with
       | .obj ckvs =>
         match jObjGet ckvs "content" with
         | some (.obj cokvs) =>
           (match jObjGet cokvs "parts" with
            | some (.arr parts) => joinTextParts parts.toList
            | _ => "")
         | _ => ""
       | _ => "")
    | _ => ""
  | _ => ""

/-- `ExtractCohereText` of audit_engine.cpp: a top-level `text` string, else
`message.content` parts joined with newlines. -/
def ExtractCohereText (j : Json) : String :=
  match j with
  | .obj kvs =>
    match jObjGet kvs "text" with
    | some (.str s) => s
    | _ =>
      match jObjGet kvs "message" with
      | some (.obj mkvs) =>
        (match jObjGet mkvs "content" with
         | some (.arr parts) => joinTextParts parts.toList
         | _ => "")
      | _ => ""
  | _ => ""

/-- `ChooseModel`'s per-id test for a lower-cased preferred name `pl`:
`lower[i] == p || lower[i].find(p) != npos`. -/
def chooseMatch (d : String) (pl : String) : Bool :=
  ToLower d = pl || strContains (ToLower d) pl

/-- The preferred-name walk of `ChooseModel`: first preferred name with a
match decides, taking its first matching discovered id. -/
def chooseFromPrefs (discovered : List String) : List String → Option String
  | [] => none
  | pref :: rest =>
    match discovered.find? (fun d => chooseMatch d (ToLower pref)) with
    | some d => some d
    | none => chooseFromPrefs discovered rest

/-- `ChooseModel` of audit_engine.cpp. -/
def ChooseModel (discovered preferred : List String) : String :=
  if discovered.isEmpty then ""
  else
    match chooseFromPrefs discovered preferred with
    | some d => d
    | none => discovered.headD ""

/-- The running state of `TopCandidates`: the output, the `used` set (as the
list of members) and whether the early `return` has fired. -/
structure TCState where
  out : List String := []
  used : List String := []
  done : Bool := false

/-- `if (out.size() >= max_count) return out;` — the early-return check. -/
def tcCheck (max_count : Nat) (st : TCState) : TCState :=
  if max_count ≤ st.out.length then { st with done := true } else st

/-- One first-pass inner iteration of `TopCandidates` for the lower-cased
preferred entry `pl`: push every not-yet-used case-insensitive match, then
run the size check (the source checks after every iteration, push or not). -/
def tcFirstStep (pl : String) (max_count : Nat) (st : TCState) (d : String) : TCState :=
  if st.done then st
  else
    let dl := ToLower d
    let st1 :=
      if (dl = pl || strContains dl pl) && !st.used.contains d then
        { st with out := st.out ++ [d], used := d :: st.used }
      else st
    tcCheck max_count st1

/-- One second-pass iteration of `TopCandidates`: push when unused, and only
then run the size check (the source checks inside the `if`). -/
def tcSecondStep (max_count : Nat) (st : TCState) (d : String) : TCState :=
  if st.done then st
  else if !st.used.contains d then
    tcCheck max_count { st with out := st.out ++ [d], used := d :: st.used }
  else st

/-- `TopCandidates` of audit_engine.cpp. -/
def TopCandidates (discovered preferred : List String) (max_count : Nat) : List String :=
  let st1 := preferred.foldl
    (fun st pref => discovered.foldl (tcFirstStep (ToLower pref) max_count) st)
    ({} : TCState)
  let st2 := discovered.foldl (tcSecondStep max_count) st1
  st2.out

/-- The claim's reading of `TopCandidates`' first pass: for each preferred
entry take only the FIRST not-yet-used match, then fill.  Stated from the
claim's words, to compare with the source's function. -/
def claimTCFirst (discovered : List String) (max_count : Nat) :
    List String → List String → List String → List String
  | used, out, [] =>
    -- second pass: remaining discovered ids in original order
    (discovered.filter (fun d => !used.contains d)).take (max_count - out.length) |>
      (fun fill => out ++ fill)
  | used, out, pref :: rest =>
    if max_count ≤ out.length then out
    else
      match discovered.find? (fun d => (ToLower d = ToLower pref ||
          strContains (ToLower d) (ToLower pref)) && !used.contains d) with
      | some d => claimTCFirst discovered max_count (d :: used) (out ++ [d]) rest
      | none => claimTCFirst discovered max_count used out rest

/-- The claim's `TopCandidates`, assembled from `claimTCFirst`. -/
def claimTopCandidates (discovered preferred : List String) (max_count : Nat) : List String :=
  (claimTCFirst discovered max_count [] [] preferred).take max_count

/-- The lower-cased answer of the first prompt test with the given name —
the `get_answer` lambda of `ScoreProvider`. -/
def promptAnswer (p : ProviderAudit) (name : String) : String :=
  match p.prompt_tests.find? (fun t => t.name = name) with
  | some t => ToLower t.answer
  | none => ""

/-- `ScoreProvider` of audit_engine.cpp. -/
def ScoreProvider (p : ProviderAudit) : ProviderAudit :=
  let reasoning := promptAnswer p "reasoning"
  let coding := promptAnswer p "coding"
  let axui := promptAnswer p "axui"
  let sr : Nat :=
    if strContains reasoning "5 minute" || reasoning = "5" ||
        strContains reasoning "five minutes" then 1 else 0
  let sc : Nat :=
    if strContains coding "[::-1]" || strContains coding "reversed(" then 1 else 0
  let has_close := strContains axui "close_popup"
  let has_continue := strContains axui "btn_continue"
  let sa : Nat :=
    if has_close && has_continue then 2
    else if has_close || has_continue then 1
    else 0
  { p with score_reasoning := sr, score_coding := sc, score_axui := sa,
           score_total := sr + sc + sa }

/-- Whether `AddTrace` counts the call as successful: HTTP 2xx and an empty
transport error string. -/
def traceOk (r : HttpResponse) : Prop :=
  200 ≤ r.status ∧ r.status < 300 ∧ r.error = ""

instance (r : HttpResponse) : Decidable (traceOk r) := by
  unfold traceOk; infer_instance

/-- `AddTrace` of audit_engine.cpp: append one `RequestTrace`, bump
`total_requests`, and bump exactly one of the other two counters. -/
def AddTrace (p : ProviderAudit) (step method url : String) (r : HttpResponse) :
    ProviderAudit :=
  let t : RequestTrace := {
    step := step, method := method, url := url, status := r.status,
    latency_ms := r.latency_ms, rate_limit_headers := RateLimitHeaders r.headers,
    response_snippet := Snippet r.bodyText 500, error := r.error }
  { p with
    request_traces := p.request_traces ++ [t],
    total_requests := p.total_requests + 1,
    successful_requests :=
      if traceOk r then p.successful_requests + 1 else p.successful_requests,
    failed_requests :=
      if traceOk r then p.failed_requests else p.failed_requests + 1 }

/-- The non-negative latencies among the recorded traces, in order. -/
def nonnegLats (p : ProviderAudit) : List Int :=
  (p.request_traces.filter (fun t => 0 ≤ t.latency_ms)).map (fun t => t.latency_ms)

/-- `FinalizeMetrics` of audit_engine.cpp: integer mean of the non-negative
latencies when any exist (all operands non-negative, so Lean's `Int`
division agrees with C++'s truncating division), else leave the field. -/
def FinalizeMetrics (p : ProviderAudit) : ProviderAudit :=
  let lats := nonnegLats p
  if lats.isEmpty then p
  else { p with avg_latency_ms := lats.sum / (lats.length : Int) }

-- sanity examples
example : ChooseModel [] ["x"] = "" := by decide
example : ChooseModel ["A", "B"] [] = "A" := by decide
example : TopCandidates ["A", "B", "C"] ["B"] 2 = ["B", "A"] := by decide
example : TopCandidates ["A"] [] 0 = ["A"] := by decide
example : claimTopCandidates ["A"] [] 0 = [] := by decide
example : TopCandidates ["A", "B1", "B2"] ["B"] 3 = ["B1", "B2", "A"] := by decide
example : claimTopCandidates ["A", "B1", "B2"] ["B"] 3 = ["B1", "A", "B2"] := by decide
example : ExtractOpenAIText (.obj (.cons "choices" (.arr (.cons (.obj
    (.cons "message" (.obj (.cons "content" (.str "OK") .nil)) .nil)) .nil)) .nil)) =
    "OK" := by decide

/-- The names of the fixed 3-prompt suite (`kPromptSuite`).  The prompt bodies
flow only into request payloads, which the Sender oracle abstracts, so only
the names (which label traces, prompt tests and scoring) are kept. -/
def kPromptSuite : List String := ["reasoning", "coding", "axui"]

/-- Whether one model check counts as working: HTTP 2xx and a non-empty
extracted answer. -/
def respWorking (extract : Json → String) (r : HttpResponse) : Bool :=
  decide (200 ≤ r.status) && decide (r.status < 300) && !(extract r.bodyJson == "")

/-- The `ModelCheck` record one candidate's probe builds. -/
def mkModelCheck (extract : Json → String) (model : String) (r : HttpResponse) :
    ModelCheck :=
  { model := model, status := r.status, latency_ms := r.latency_ms,
    working := respWorking extract r, error_snippet := Snippet r.bodyText 500 }

/-- The model-check loop every adapter runs, shared verbatim across the five
adapters up to the chat URL of a candidate and the answer extractor (the
source spells the identical block out five times).  `ri`/`ci` are the next
Sender-request and cancellation-read ordinals; the `Bool` of the result says
whether the loop returned early through the cancellation branch (in which
case the note is appended and metrics are finalized, as in the source). -/
def checkLoop (send : Nat → HttpResponse) (cancel : Nat → Bool)
    (urlOf : String → String) (extract : Json → String) :
    List String → ProviderAudit → Nat → Nat → ProviderAudit × Nat × Nat × Bool
  | [], p, ri, ci => (p, ri, ci, false)
  | model :: rest, p, ri, ci =>
    if cancel ci then
      (FinalizeMetrics { p with notes := p.notes ++ " Audit canceled by user." },
        ri, ci + 1, true)
    else
      let resp := send ri
      let p1 := AddTrace p ("model_check:" ++ model) "POST" (urlOf model) resp
      let mc := mkModelCheck extract model resp
      let p2 := { p1 with
        model_checks := p1.model_checks ++ [mc],
        working_models :=
          if mc.working then p1.working_models ++ [model] else p1.working_models,
        failing_models :=
          if mc.working then p1.failing_models else p1.failing_models ++ [model] }
      checkLoop send cancel urlOf extract rest p2 (ri + 1) (ci + 1)

/-- The prompt-suite loop every adapter runs (same sharing as `checkLoop`;
`url` is fixed before the loop since `model_used` is already chosen). -/
def promptLoop (send : Nat → HttpResponse) (cancel : Nat → Bool)
    (url : String) (extract : Json → String) :
    List String → ProviderAudit → Nat → Nat → ProviderAudit × Nat × Nat × Bool
  | [], p, ri, ci => (p, ri, ci, false)
  | name :: rest, p, ri, ci =>
    if cancel ci then
      (FinalizeMetrics { p with notes := p.notes ++ " Audit canceled by user." },
        ri, ci + 1, true)
    else
      let resp := send ri
      let p1 := AddTrace p ("prompt_test:" ++ name) "POST" url resp
      let t : PromptTest := {
        name := name, status := resp.status, latency_ms := resp.latency_ms,
        rate_limit_headers := RateLimitHeaders resp.headers,
        answer := Snippet (extract resp.bodyJson) 1400,
        error_snippet :=
          if resp.status < 200 ∨ 300 ≤ resp.status then Snippet resp.bodyText 700
          else "" }
      promptLoop send cancel url extract rest
        { p1 with prompt_tests := p1.prompt_tests ++ [t] } (ri + 1) (ci + 1)

/-- The opening phase of the OpenAI-compatible adapter once a key is present:
fresh audit, the list-models trace, list metadata, raw payload, and the
discovery-derived fields, all from the list response. -/
def openAIPreCheck (provider_id provider_name key list_url : String)
    (list_resp : HttpResponse) : ProviderAudit :=
  let p0 : ProviderAudit := { initProviderAudit with
    provider_id := provider_id, provider_name := provider_name,
    api_key := key, key_supplied := key != "" }
  let p1 := AddTrace p0 "list_models" "GET" list_url list_resp
  let p2 := { p1 with
    models_status := list_resp.status,
    models_latency_ms := list_resp.latency_ms,
    models_rate_limit_headers := RateLimitHeaders list_resp.headers,
    error_snippet :=
      if list_resp.status < 200 ∨ 300 ≤ list_resp.status then
        Snippet list_resp.bodyText 500
      else p1.error_snippet }
  let p3 := { p2 with
    raw_payload := p2.raw_payload ++ [("models_response", list_resp.bodyJson)] }
  let discovered := ExtractModelIds list_resp.bodyJson
  { p3 with
    sample_models := discovered.take 30,
    max_context_seen := ExtractMaxContext list_resp.bodyJson,
    capability_tags := ExtractCapabilities discovered list_resp.bodyJson }

/-- `AuditOpenAICompatible` of audit_engine.cpp, with explicit Sender/cancel
ordinals (`ri`, `ci`) so the orchestrator can thread them; returns the audit
and the next ordinals.  The early returns of the source become nested
if/else on the loop results.  `extra_headers` only shapes outgoing requests,
which the Sender oracle abstracts. -/
def AuditOpenAICompatibleCore (provider_id provider_name key list_url chat_url : String)
    (preferred_models : List String) (extra_headers : List String)
    (send : Nat → HttpResponse) (cancel : Nat → Bool) (ri ci : Nat) :
    ProviderAudit × Nat × Nat :=
  let _ := extra_headers
  let p0 : ProviderAudit := { initProviderAudit with
    provider_id := provider_id, provider_name := provider_name,
    api_key := key, key_supplied := key != "" }
  if key = "" then ({ p0 with notes := "No API key supplied." }, ri, ci)
  else
    let p4 := openAIPreCheck provider_id provider_name key list_url (send ri)
    let discovered := ExtractModelIds (send ri).bodyJson
    if discovered.isEmpty then
      (FinalizeMetrics { p4 with notes := "No models discovered or access denied." },
        ri + 1, ci)
    else
      let model_candidates := TopCandidates discovered preferred_models 8
      let r5 := checkLoop send cancel (fun _ => chat_url) ExtractOpenAIText
        model_candidates p4 (ri + 1) ci
      if r5.2.2.2 then (r5.1, r5.2.1, r5.2.2.1)
      else
        let p6 := { r5.1 with model_used :=
          if r5.1.working_models.isEmpty then ChooseModel discovered preferred_models
          else r5.1.working_models.headD "" }
        let r7 := promptLoop send cancel chat_url ExtractOpenAIText kPromptSuite
          p6 r5.2.1 r5.2.2.1
        if r7.2.2.2 then (r7.1, r7.2.1, r7.2.2.1)
        else (FinalizeMetrics (ScoreProvider r7.1), r7.2.1, r7.2.2.1)

/-- `AuditOpenAICompatible` run standalone (ordinals from 0). -/
def AuditOpenAICompatible (provider_id provider_name key list_url chat_url : String)
    (preferred_models : List String) (extra_headers : List String)
    (send : Nat → HttpResponse) (cancel : Nat → Bool) : ProviderAudit :=
  (AuditOpenAICompatibleCore provider_id provider_name key list_url chat_url
    preferred_models extra_headers send cancel 0 0).1

/-- Whether a Google model entry's `supportedGenerationMethods` array holds
the string "generateContent". -/
def supportsGenerate : JArr → Bool
  | .nil => false
  | .cons m rest =>
    (match m with | .str s => s = "generateContent" | _ => false) || supportsGenerate rest

/-- The Google discovery walk: names of object entries that carry a string
`name` and a `supportedGenerationMethods` array holding "generateContent". -/
def googleNames : JArr → List String
  | .nil => []
  | .cons model rest =>
    (match model with
     | .obj kvs =>
       (match jObjGet kvs "name" with
        | some (.str name) =>
          (match jObjGet kvs "supportedGenerationMethods" with
           | some (.arr ms) => if supportsGenerate ms then [name] else []
           | _ => [])
        | _ => [])
     | _ => []) ++ googleNames rest

/-- The ids `AuditGoogle` pushes before deduplication. -/
def googleDiscoveredRaw (list_json : Json) : List String :=
  match jGet list_json "models" with
  | some (.arr xs) => googleNames xs
  | _ => []

/-- The deduplicated Google discovery. -/
def googleDiscovered (list_json : Json) : List String :=
  dedupSort (googleDiscoveredRaw list_json)

/-- The preferred-model list of `AuditGoogle`. -/
def googlePreferred : List String :=
  ["models/gemini-2.5-pro", "models/gemini-2.5-flash",
   "models/gemini-2.0-flash", "models/gemini-1.5-pro"]

/-- The per-candidate chat URL of `AuditGoogle`. -/
def googleChatUrl (key model : String) : String :=
  "https://generativelanguage.googleapis.com/v1beta/" ++ model ++
    ":generateContent?key=" ++ key

/-- The list-models URL of `AuditGoogle`. -/
def googleListUrl (key : String) : String :=
  "https://generativelanguage.googleapis.com/v1beta/models?key=" ++ key

/-- The opening phase of `AuditGoogle` once a key is present. -/
def googlePreCheck (key : String) (list_resp : HttpResponse) : ProviderAudit :=
  let p0 : ProviderAudit := { initProviderAudit with
    provider_id := "google_ai_studio", provider_name := "Google AI Studio",
    api_key := key, key_supplied := key != "" }
  let p1 := AddTrace p0 "list_models" "GET" (googleListUrl key) list_resp
  let p2 := { p1 with
    models_status := list_resp.status,
    models_latency_ms := list_resp.latency_ms,
    models_rate_limit_headers := RateLimitHeaders list_resp.headers,
    error_snippet :=
      if list_resp.status < 200 ∨ 300 ≤ list_resp.status then
        Snippet list_resp.bodyText 500
      else p1.error_snippet }
  let p3 := { p2 with
    raw_payload := p2.raw_payload ++ [("models_response", list_resp.bodyJson)] }
  let discovered := googleDiscovered list_resp.bodyJson
  { p3 with
    sample_models := discovered.take 30,
    max_context_seen := ExtractMaxContext list_resp.bodyJson,
    capability_tags := ExtractCapabilities discovered list_resp.bodyJson }

/-- `AuditGoogle` of audit_engine.cpp. -/
def AuditGoogleCore (key : String) (send : Nat → HttpResponse)
    (cancel : Nat → Bool) (ri ci : Nat) : ProviderAudit × Nat × Nat :=
  let p0 : ProviderAudit := { initProviderAudit with
    provider_id := "google_ai_studio", provider_name := "Google AI Studio",
    api_key := key, key_supplied := key != "" }
  if key = "" then ({ p0 with notes := "No API key supplied." }, ri, ci)
  else
    let p4 := googlePreCheck key (send ri)
    let discovered := googleDiscovered (send ri).bodyJson
    if discovered.isEmpty then
      (FinalizeMetrics { p4 with notes := "No generateContent models discovered." },
        ri + 1, ci)
    else
      let check_candidates := TopCandidates discovered googlePreferred 8
      let r5 := checkLoop send cancel (googleChatUrl key) ExtractGoogleText
        check_candidates p4 (ri + 1) ci
      if r5.2.2.2 then (r5.1, r5.2.1, r5.2.2.1)
      else
        let p6 := { r5.1 with model_used :=
          if r5.1.working_models.isEmpty then ChooseModel discovered googlePreferred
          else r5.1.working_models.headD "" }
        let r7 := promptLoop send cancel (googleChatUrl key p6.model_used)
          ExtractGoogleText kPromptSuite p6 r5.2.1 r5.2.2.1
        if r7.2.2.2 then (r7.1, r7.2.1, r7.2.2.1)
        else (FinalizeMetrics (ScoreProvider r7.1), r7.2.1, r7.2.2.1)

/-- `AuditGoogle` run standalone (ordinals from 0). -/
def AuditGoogle (key : String) (send : Nat → HttpResponse)
    (cancel : Nat → Bool) : ProviderAudit :=
  (AuditGoogleCore key send cancel 0 0).1

/-- The Cohere discovery walk: an entry's `name` string when it is an object,
else the entry itself when it is a string. -/
def cohereNames : JArr → List String
  | .nil => []
  | .cons model rest =>
    (match model with
     | .obj kvs =>
       (match jObjGet kvs "name" with | some (.str s) => [s] | _ => [])
     | .str s => [s]
     | _ => []) ++ cohereNames rest

/-- The ids `AuditCohere` pushes before deduplication. -/
def cohereDiscoveredRaw (list_json : Json) : List String :=
  match jGet list_json "models" with
  | some (.arr xs) => cohereNames xs
  | _ => []

/-- The preferred-model list of `AuditCohere`. -/
def coherePreferred : List String :=
  ["command-a-reasoning-08-2025", "command-r-08-2024", "command-a-vision-07-2025"]

/-- The opening phase of `AuditCohere` once a key is present. -/
def coherePreCheck (key : String) (list_resp : HttpResponse) : ProviderAudit :=
  let p0 : ProviderAudit := { initProviderAudit with
    provider_id := "cohere", provider_name := "Cohere",
    api_key := key, key_supplied := key != "" }
  let p1 := AddTrace p0 "list_models" "GET" "https://api.cohere.com/v1/models" list_resp
  let p2 := { p1 with
    models_status := list_resp.status,
    models_latency_ms := list_resp.latency_ms,
    models_rate_limit_headers := RateLimitHeaders list_resp.headers,
    error_snippet :=
      if list_resp.status < 200 ∨ 300 ≤ list_resp.status then
        Snippet list_resp.bodyText 500
      else p1.error_snippet }
  let p3 := { p2 with
    raw_payload := p2.raw_payload ++ [("models_response", list_resp.bodyJson)] }
  let discovered := dedupSort (cohereDiscoveredRaw list_resp.bodyJson)
  { p3 with
    sample_models := discovered.take 30,
    max_context_seen := ExtractMaxContext list_resp.bodyJson,
    capability_tags := ExtractCapabilities discovered list_resp.bodyJson }

/-- `AuditCohere` of audit_engine.cpp.  It filters embed/rerank models out of
the discovered list before ranking, and ranks over the filtered list. -/
def AuditCohereCore (key : String) (send : Nat → HttpResponse)
    (cancel : Nat → Bool) (ri ci : Nat) : ProviderAudit × Nat × Nat :=
  let p0 : ProviderAudit := { initProviderAudit with
    provider_id := "cohere", provider_name := "Cohere",
    api_key := key, key_supplied := key != "" }
  if key = "" then ({ p0 with notes := "No API key supplied." }, ri, ci)
  else
    let p4 := coherePreCheck key (send ri)
    let discovered := dedupSort (cohereDiscoveredRaw (send ri).bodyJson)
    let chat_candidates := discovered.filter (fun m =>
      !(strContains (ToLower m) "embed" || strContains (ToLower m) "rerank"))
    if chat_candidates.isEmpty then
      (FinalizeMetrics
        { p4 with notes := "No chat-capable models inferred from model names." },
        ri + 1, ci)
    else
      let checks := TopCandidates chat_candidates coherePreferred 8
      let r5 := checkLoop send cancel (fun _ => "https://api.cohere.com/v1/chat")
        ExtractCohereText checks p4 (ri + 1) ci
      if r5.2.2.2 then (r5.1, r5.2.1, r5.2.2.1)
      else
        let p6 := { r5.1 with model_used :=
          if r5.1.working_models.isEmpty
            then (ChooseModel chat_candidates coherePreferred)
            else (r5.1.working_models.headD "") }
        let r7 := promptLoop send cancel "https://api.cohere.com/v1/chat"
          ExtractCohereText kPromptSuite p6 r5.2.1 r5.2.2.1
        if r7.2.2.2 then (r7.1, r7.2.1, r7.2.2.1)
        else (FinalizeMetrics (ScoreProvider r7.1), r7.2.1, r7.2.2.1)

/-- The preferred-model list of `AuditVercel`. -/
def vercelPreferred : List String :=
  ["openai/gpt-5", "openai/gpt-4.1", "openai/gpt-4o",
   "anthropic/claude-3.7-sonnet", "google/gemini-2.5-pro"]

/-- The opening phase of `AuditVercel` once a key is present: the identity
trace, then the list trace and discovery-derived fields. -/
def vercelPreCheck (key : String) (auth_resp list_resp : HttpResponse) :
    ProviderAudit :=
  let p0 : ProviderAudit := { initProviderAudit with
    provider_id := "vercel", provider_name := "Vercel AI Gateway",
    api_key := key, key_supplied := key != "" }
  let p1 := AddTrace p0 "auth_user" "GET" "https://api.vercel.com/v2/user" auth_resp
  let p2 := { p1 with
    auth_status := auth_resp.status,
    auth_latency_ms := auth_resp.latency_ms,
    auth_rate_limit_headers := RateLimitHeaders auth_resp.headers }
  let p3 := AddTrace p2 "list_models" "GET"
    "https://ai-gateway.vercel.sh/v1/models" list_resp
  let p4 := { p3 with
    models_status := list_resp.status,
    models_latency_ms := list_resp.latency_ms,
    models_rate_limit_headers := RateLimitHeaders list_resp.headers,
    error_snippet :=
      if list_resp.status < 200 ∨ 300 ≤ list_resp.status then
        Snippet list_resp.bodyText 500
      else p3.error_snippet }
  let p5 := { p4 with raw_payload := p4.raw_payload ++
    [("auth_response", auth_resp.bodyJson), ("models_response", list_resp.bodyJson)] }
  let discovered := ExtractModelIds list_resp.bodyJson
  { p5 with
    sample_models := discovered.take 30,
    max_context_seen := ExtractMaxContext list_resp.bodyJson,
    capability_tags := ExtractCapabilities discovered list_resp.bodyJson }

/-- `AuditVercel` of audit_engine.cpp: an identity request first, then the
OpenAI-shaped workflow against the AI Gateway. -/
def AuditVercelCore (key : String) (send : Nat → HttpResponse)
    (cancel : Nat → Bool) (ri ci : Nat) : ProviderAudit × Nat × Nat :=
  let p0 : ProviderAudit := { initProviderAudit with
    provider_id := "vercel", provider_name := "Vercel AI Gateway",
    api_key := key, key_supplied := key != "" }
  if key = "" then ({ p0 with notes := "No API key supplied." }, ri, ci)
  else
    let p6 := vercelPreCheck key (send ri) (send (ri + 1))
    let discovered := ExtractModelIds (send (ri + 1)).bodyJson
    if discovered.isEmpty then
      (FinalizeMetrics { p6 with notes := "No models discovered from AI Gateway." },
        ri + 2, ci)
    else
      let checks := TopCandidates discovered vercelPreferred 8
      let r5 := checkLoop send cancel
        (fun _ => "https://ai-gateway.vercel.sh/v1/chat/completions")
        ExtractOpenAIText checks p6 (ri + 2) ci
      if r5.2.2.2 then (r5.1, r5.2.1, r5.2.2.1)
      else
        let p8 := { r5.1 with model_used :=
          if r5.1.working_models.isEmpty then ChooseModel discovered vercelPreferred
          else r5.1.working_models.headD "" }
        let r7 := promptLoop send cancel
          "https://ai-gateway.vercel.sh/v1/chat/completions"
          ExtractOpenAIText kPromptSuite p8 r5.2.1 r5.2.2.1
        if r7.2.2.2 then (r7.1, r7.2.1, r7.2.2.1)
        else (FinalizeMetrics (ScoreProvider r7.1), r7.2.1, r7.2.2.1)

/-- The preferred-model list of `AuditGitHubToken`. -/
def githubPreferred : List String :=
  ["gpt-4.1", "gpt-4o", "gpt-4o-mini", "deepseek-r1", "phi-4"]

/-- The opening phase of `AuditGitHubToken` once a token is present. -/
def githubPreCheck (provider_id provider_name token : String)
    (user_resp list_resp : HttpResponse) : ProviderAudit :=
  let p0 : ProviderAudit := { initProviderAudit with
    provider_id := provider_id, provider_name := provider_name,
    api_key := token, key_supplied := token != "" }
  let p1 := AddTrace p0 "auth_user" "GET" "https://api.github.com/user" user_resp
  let p2 := { p1 with
    auth_status := user_resp.status,
    auth_latency_ms := user_resp.latency_ms,
    auth_rate_limit_headers := RateLimitHeaders user_resp.headers }
  let p3 := AddTrace p2 "list_models" "GET"
    "https://models.inference.ai.azure.com/models" list_resp
  let p4 := { p3 with
    models_status := list_resp.status,
    models_latency_ms := list_resp.latency_ms,
    models_rate_limit_headers := RateLimitHeaders list_resp.headers,
    error_snippet :=
      if list_resp.status < 200 ∨ 300 ≤ list_resp.status then
        Snippet list_resp.bodyText 500
      else p3.error_snippet }
  let p5 := { p4 with raw_payload := p4.raw_payload ++
    [("user_response", user_resp.bodyJson), ("models_response", list_resp.bodyJson)] }
  let discovered := ExtractModelIds list_resp.bodyJson
  { p5 with
    sample_models := discovered.take 30,
    max_context_seen := ExtractMaxContext list_resp.bodyJson,
    capability_tags := ExtractCapabilities discovered list_resp.bodyJson }

/-- `AuditGitHubToken` of audit_engine.cpp: a GitHub identity request first,
then the OpenAI-shaped workflow against the GitHub Models endpoint. -/
def AuditGitHubTokenCore (provider_id provider_name token : String)
    (send : Nat → HttpResponse) (cancel : Nat → Bool) (ri ci : Nat) :
    ProviderAudit × Nat × Nat :=
  let p0 : ProviderAudit := { initProviderAudit with
    provider_id := provider_id, provider_name := provider_name,
    api_key := token, key_supplied := token != "" }
  if token = "" then ({ p0 with notes := "No API key supplied." }, ri, ci)
  else
    let p6 := githubPreCheck provider_id provider_name token (send ri) (send (ri + 1))
    let discovered := ExtractModelIds (send (ri + 1)).bodyJson
    if discovered.isEmpty then
      (FinalizeMetrics { p6 with notes := "No models discovered for this token." },
        ri + 2, ci)
    else
      let checks := TopCandidates discovered githubPreferred 8
      let r5 := checkLoop send cancel
        (fun _ => "https://models.inference.ai.azure.com/chat/completions")
        ExtractOpenAIText checks p6 (ri + 2) ci
      if r5.2.2.2 then (r5.1, r5.2.1, r5.2.2.1)
      else
        let p8 := { r5.1 with model_used :=
          if r5.1.working_models.isEmpty then ChooseModel discovered githubPreferred
          else r5.1.working_models.headD "" }
        let r7 := promptLoop send cancel
          "https://models.inference.ai.azure.com/chat/completions"
          ExtractOpenAIText kPromptSuite p8 r5.2.1 r5.2.2.1
        if r7.2.2.2 then (r7.1, r7.2.1, r7.2.2.1)
        else (FinalizeMetrics (ScoreProvider r7.1), r7.2.1, r7.2.2.1)

/-- `key_of` of `AuditEngine::Run`: the configured key, or empty. -/
def keyOf (keys : List (String × String)) (k : String) : String :=
  match keys.find? (fun kv => kv.1 = k) with
  | some kv => kv.2
  | none => ""

/-- The orchestrator's running state: providers so far and the next
Sender-request / cancellation-read ordinals. -/
structure RunSt where
  providers : List ProviderAudit := []
  ri : Nat := 0
  ci : Nat := 0

/-- One `if (!cancel_requested.load()) report.providers.push_back(...)` block
of `AuditEngine::Run`: read the flag (one ordinal), and only on false run the
provider and append its audit. -/
def runGuarded (cancel : Nat → Bool) (st : RunSt)
    (runner : Nat → Nat → ProviderAudit × Nat × Nat) : RunSt :=
  if cancel st.ci then { st with ci := st.ci + 1 }
  else
    let r := runner st.ri (st.ci + 1)
    { providers := st.providers ++ [r.1], ri := r.2.1, ci := r.2.2 }

/-- Providers 2..11 of `AuditEngine::Run`, in invocation order, each as a
runner from the current ordinals (provider 1, OpenRouter, is launched
unconditionally right after the initial flag check and is not in this list). -/
def providerRunners (keys : List (String × String)) (send : Nat → HttpResponse)
    (cancel : Nat → Bool) : List (Nat → Nat → ProviderAudit × Nat × Nat) :=
  [fun ri ci => AuditGoogleCore (keyOf keys "google_ai_studio") send cancel ri ci,
   fun ri ci => AuditOpenAICompatibleCore "mistral" "Mistral" (keyOf keys "mistral")
     "https://api.mistral.ai/v1/models" "https://api.mistral.ai/v1/chat/completions"
     ["mistral-large-latest", "magistral-medium-latest", "mistral-medium-latest",
      "mistral-small-latest"] [] send cancel ri ci,
   fun ri ci => AuditVercelCore (keyOf keys "vercel") send cancel ri ci,
   fun ri ci => AuditOpenAICompatibleCore "groq" "Groq" (keyOf keys "groq")
     "https://api.groq.com/openai/v1/models"
     "https://api.groq.com/openai/v1/chat/completions"
     ["llama-3.3-70b-versatile", "deepseek-r1-distill-llama-70b", "qwen/qwen3-32b"]
     [] send cancel ri ci,
   fun ri ci => AuditCohereCore (keyOf keys "cohere") send cancel ri ci,
   fun ri ci => AuditOpenAICompatibleCore "ai21" "AI21" (keyOf keys "ai21")
     "https://api.ai21.com/studio/v1/models"
     "https://api.ai21.com/studio/v1/chat/completions"
     ["jamba-1.5-large", "jamba-large", "jamba-1.5-mini", "jamba-mini"]
     [] send cancel ri ci,
   fun ri ci => AuditGitHubTokenCore "github_chatgpt" "GitHub PAT (chatgpt)"
     (keyOf keys "github_chatgpt") send cancel ri ci,
   fun ri ci => AuditGitHubTokenCore "github_chatgpt5" "GitHub PAT (chatgpt5)"
     (keyOf keys "github_chatgpt5") send cancel ri ci,
   fun ri ci => AuditGitHubTokenCore "github_deepseek" "GitHub PAT (deepseek)"
     (keyOf keys "github_deepseek") send cancel ri ci,
   fun ri ci => AuditGitHubTokenCore "github_jamba" "GitHub PAT (jamba)"
     (keyOf keys "github_jamba") send cancel ri ci]

/-- Provider 1 of `AuditEngine::Run` (OpenRouter), from given ordinals. -/
def openrouterRunner (keys : List (String × String)) (send : Nat → HttpResponse)
    (cancel : Nat → Bool) (ri ci : Nat) : ProviderAudit × Nat × Nat :=
  AuditOpenAICompatibleCore "openrouter" "OpenRouter" (keyOf keys "openrouter")
    "https://openrouter.ai/api/v1/models" "https://openrouter.ai/api/v1/chat/completions"
    ["openai/gpt-4.1", "openai/gpt-4o", "anthropic/claude-3.7-sonnet",
     "google/gemini-2.5-pro"] [] send cancel ri ci

/-- `AuditEngine::Run` of audit_engine.cpp.  Cancellation read 0 is the check
at the top; each guarded block reads one more; the final read picks the
closing log line.  Adapter-internal log callback lines are omitted (they never
reach any claim); run logs keep the orchestrator's own lines, without
timestamps. -/
def AuditEngineRun (keys : List (String × String)) (send : Nat → HttpResponse)
    (cancel : Nat → Bool) : AuditReport :=
  if cancel 0 then
    { generated_at_utc := "", run_logs := ["Audit canceled before start."],
      providers := [] }
  else
    let r0 := openrouterRunner keys send cancel 0 1
    let st := (providerRunners keys send cancel).foldl (runGuarded cancel)
      { providers := [r0.1], ri := r0.2.1, ci := r0.2.2 }
    { generated_at_utc := "",
        run_logs := ["Starting full provider audit",
          if cancel st.ci then "Audit ended early due to cancellation request."
          else "Audit completed."],
        providers := st.providers }

/-- The first `m` of providers 2..11 run unguarded from a state (every check
read still consumes its ordinal, as a false read does): what a cancelled run
leaves behind is such a prefix. -/
def runAll (st : RunSt) : List (Nat → Nat → ProviderAudit × Nat × Nat) → RunSt
  | [] => st
  | r :: rest =>
    let v := r st.ri (st.ci + 1)
    runAll { providers := st.providers ++ [v.1], ri := v.2.1, ci := v.2.2 } rest

/-- The cancellation flag as the UI drives it: once set, never cleared. -/
def CancelMonotone (cancel : Nat → Bool) : Prop :=
  ∀ i j, i ≤ j → cancel i = true → cancel j = true

-- sanity examples
example :
    (AuditEngineRun [] (fun _ => {}) (fun _ => true)).providers.length = 0 := by decide
example :
    (AuditEngineRun [] (fun _ => {}) (fun _ => false)).providers.length = 11 := by decide
example :
    (AuditEngineRun [] (fun _ => {}) (fun i => decide (5 ≤ i))).providers.length = 5 := by
  decide

/-! ### Order lemmas for `dedupSort` -/

/-- Characters with equal code points are equal. -/
theorem charEqOfToNat {a b : Char} (h : a.toNat = b.toNat) : a = b :=
  Char.ext (UInt32.ext h)

/-- Strings with equal character data are equal. -/
theorem stringEqOfData {a b : String} (h : a.data = b.data) : a = b := by
  cases a; cases b; simp_all

/-- `strLtB` is irreflexive. -/
theorem strLtB_irrefl : ∀ cs, strLtB cs cs = false
  | [] => rfl
  | c :: cs => by simp [strLtB, strLtB_irrefl cs]

/-- `strLt` is irreflexive. -/
theorem strLt_irrefl (x : String) : strLt x x = false := strLtB_irrefl x.data

/-- `strLtB` is total on distinct lists. -/
theorem strLtB_total : ∀ as bs, as ≠ bs → strLtB as bs = true ∨ strLtB bs as = true
  | [], [], h => absurd rfl h
  | [], _ :: _, _ => Or.inl rfl
  | _ :: _, [], _ => Or.inr rfl
  | a :: as, b :: bs, h => by
    by_cases hc : a.toNat = b.toNat
    · have hab : a = b := charEqOfToNat hc
      subst hab
      have hne : as ≠ bs := fun hh => h (by rw [hh])
      simpa [strLtB] using strLtB_total as bs hne
    · have hc' : b.toNat ≠ a.toNat := fun hh => hc hh.symm
      simp only [strLtB, if_neg hc, if_neg hc', decide_eq_true_eq]
      omega

/-- `strLt` is total on distinct strings. -/
theorem strLt_total (x y : String) (h : x ≠ y) :
    strLt x y = true ∨ strLt y x = true :=
  strLtB_total x.data y.data (fun hd => h (stringEqOfData hd))

/-- `strLtB` is transitive. -/
theorem strLtB_trans : ∀ as bs cs, strLtB as bs = true → strLtB bs cs = true →
    strLtB as cs = true := by
  intro as
  induction as with
  | nil =>
    intro bs cs h1 h2
    cases bs with
    | nil => simp [strLtB] at h1
    | cons b bs =>
      cases cs with
      | nil => simp [strLtB] at h2
      | cons c cs => simp [strLtB]
  | cons a as ih =>
    intro bs cs h1 h2
    cases bs with
    | nil => simp [strLtB] at h1
    | cons b bs =>
      cases cs with
      | nil => simp [strLtB] at h2
      | cons c cs =>
        simp only [strLtB] at h1 h2 ⊢
        by_cases hab : a.toNat = b.toNat
        · rw [if_pos hab] at h1
          by_cases hbc : b.toNat = c.toNat
          · rw [if_pos hbc] at h2
            rw [if_pos (hab.trans hbc)]
            exact ih bs cs h1 h2
          · rw [if_neg hbc, decide_eq_true_eq] at h2
            have hac : a.toNat ≠ c.toNat := by omega
            rw [if_neg hac, decide_eq_true_eq]
            omega
        · rw [if_neg hab, decide_eq_true_eq] at h1
          by_cases hbc : b.toNat = c.toNat
          · have hac : a.toNat ≠ c.toNat := by omega
            rw [if_neg hac, decide_eq_true_eq]
            omega
          · rw [if_neg hbc, decide_eq_true_eq] at h2
            have hac : a.toNat ≠ c.toNat := by omega
            rw [if_neg hac, decide_eq_true_eq]
            omega

/-- `strLt` is transitive. -/
theorem strLt_trans {x y z : String} (h1 : strLt x y = true)
    (h2 : strLt y z = true) : strLt x z = true :=
  strLtB_trans x.data y.data z.data h1 h2

/-- Membership through one sorted-set insertion. -/
theorem mem_insSorted {x a : String} : ∀ {l : List String},
    x ∈ insSorted a l ↔ x = a ∨ x ∈ l
  | [] => by simp [insSorted]
  | y :: ys => by
    by_cases h1 : a = y
    · subst h1
      have he : insSorted a (a :: ys) = a :: ys := by simp [insSorted]
      rw [he, List.mem_cons]
      tauto
    · by_cases h2 : strLt a y = true
      · have he : insSorted a (y :: ys) = a :: y :: ys := by
          simp [insSorted, h1, h2]
        rw [he, List.mem_cons, List.mem_cons]
      · have he : insSorted a (y :: ys) = y :: insSorted a ys := by
          simp [insSorted, h1, h2]
        rw [he, List.mem_cons, List.mem_cons, mem_insSorted (l := ys)]
        tauto

/-- One sorted-set insertion keeps the list strictly sorted. -/
theorem pairwise_insSorted {a : String} : ∀ {l : List String},
    l.Pairwise (fun x y => strLt x y = true) →
    (insSorted a l).Pairwise (fun x y => strLt x y = true)
  | [], _ => by simp [insSorted]
  | y :: ys, h => by
    rcases List.pairwise_cons.mp h with ⟨hy, hys⟩
    by_cases h1 : a = y
    · simpa [insSorted, h1] using h
    · by_cases h2 : strLt a y = true
      · simp only [insSorted, if_neg h1, if_pos h2]
        refine List.pairwise_cons.mpr ⟨?_, h⟩
        intro z hz
        rcases List.mem_cons.mp hz with rfl | hz'
        · exact h2
        · exact strLt_trans h2 (hy z hz')
      · have h2' : ¬(strLt a y = true) := h2
        simp only [insSorted, if_neg h1, if_neg h2']
        refine List.pairwise_cons.mpr ⟨?_, pairwise_insSorted hys⟩
        intro z hz
        rcases mem_insSorted.mp hz with rfl | hz'
        · rcases strLt_total y z (fun hh => h1 hh.symm) with hlt | hlt
          · exact hlt
          · exact absurd hlt h2
        · exact hy z hz'

/-- A strictly sorted list has no duplicates. -/
theorem pairwise_strLt_nodup {l : List String}
    (h : l.Pairwise (fun x y => strLt x y = true)) : l.Nodup :=
  h.imp (fun hxy => by
    intro he
    subst he
    simp [strLt_irrefl] at hxy)

/-- The fold underlying `dedupSort` keeps the accumulator strictly sorted. -/
theorem foldl_insSorted_pairwise : ∀ (l acc : List String),
    acc.Pairwise (fun x y => strLt x y = true) →
    (l.foldl (fun acc x => insSorted x acc) acc).Pairwise (fun x y => strLt x y = true)
  | [], _, h => h
  | _ :: xs, _, h => foldl_insSorted_pairwise xs _ (pairwise_insSorted h)

/-- `dedupSort` yields a strictly sorted list. -/
theorem dedupSort_pairwise (l : List String) :
    (dedupSort l).Pairwise (fun x y => strLt x y = true) :=
  foldl_insSorted_pairwise l [] (by simp)

/-- `dedupSort` never duplicates an element. -/
theorem dedupSort_nodup (l : List String) : (dedupSort l).Nodup :=
  pairwise_strLt_nodup (dedupSort_pairwise l)

/-- Membership through the fold underlying `dedupSort`. -/
theorem mem_foldl_insSorted : ∀ (l acc : List String) (x : String),
    x ∈ l.foldl (fun acc x => insSorted x acc) acc ↔ x ∈ acc ∨ x ∈ l
  | [], acc, x => by simp
  | y :: ys, acc, x => by
    simp only [List.foldl_cons, mem_foldl_insSorted ys _ x, mem_insSorted,
      List.mem_cons]
    tauto

/-- `dedupSort` keeps exactly the elements of its input. -/
theorem mem_dedupSort {x : String} {l : List String} : x ∈ dedupSort l ↔ x ∈ l := by
  simp [dedupSort, mem_foldl_insSorted]

/-! ### Invariants of `TopCandidates` -/

/-- The invariant the `TopCandidates` state keeps: no duplicates, `used`
mirrors `out`, only discovered ids, the global length bound, and — while the
early return has not fired — room per the last size check. -/
def TCInv (discovered : List String) (max_count : Nat) (st : TCState) : Prop :=
  st.out.Nodup ∧
  (∀ x, x ∈ st.out ↔ x ∈ st.used) ∧
  (∀ x ∈ st.out, x ∈ discovered) ∧
  st.out.length ≤ max max_count 1 ∧
  (st.done = false → st.out.length < max_count ∨ st.out.length = 0)

/-- The size check restores the invariant after any push that kept the other
clauses. -/
theorem tcCheck_inv {discovered : List String} {max_count : Nat} {st : TCState}
    (h1 : st.out.Nodup) (h2 : ∀ x, x ∈ st.out ↔ x ∈ st.used)
    (h3 : ∀ x ∈ st.out, x ∈ discovered) (h4 : st.out.length ≤ max max_count 1) :
    TCInv discovered max_count (tcCheck max_count st) := by
  unfold tcCheck
  split
  · exact ⟨h1, h2, h3, h4, by simp⟩
  · next hlt => exact ⟨h1, h2, h3, h4, fun _ => Or.inl (by omega)⟩

/-- Pushing an unused discovered id keeps the non-`done` clauses, given the
state was not yet done. -/
theorem tcPush_inv {discovered : List String} {max_count : Nat} {st : TCState}
    {d : String} (hd : d ∈ discovered) (hnotin : d ∉ st.used)
    (h : TCInv discovered max_count st) (hdone : st.done = false) :
    ({ st with out := st.out ++ [d], used := d :: st.used } : TCState).out.Nodup ∧
    (∀ x, x ∈ st.out ++ [d] ↔ x ∈ d :: st.used) ∧
    (∀ x ∈ st.out ++ [d], x ∈ discovered) ∧
    (st.out ++ [d]).length ≤ max max_count 1 := by
  obtain ⟨h1, h2, h3, h4, h5⟩ := h
  have hdout : d ∉ st.out := fun hin => hnotin ((h2 d).mp hin)
  refine ⟨?_, ?_, ?_, ?_⟩
  · simp [List.nodup_append, h1, hdout]
  · intro x
    simp only [List.mem_append, List.mem_singleton, List.mem_cons, h2 x]
    tauto
  · intro x hx
    rcases List.mem_append.mp hx with hx' | hx'
    · exact h3 x hx'
    · rcases List.mem_singleton.mp hx' with rfl
      exact hd
  · rcases h5 hdone with hlt | hz
    · simp only [List.length_append, List.length_singleton]
      omega
    · simp only [List.length_append, List.length_singleton, hz]
      omega

/-- One first-pass iteration keeps the invariant. -/
theorem tcFirstStep_inv (pl : String) {discovered : List String} {max_count : Nat}
    {st : TCState} {d : String} (hd : d ∈ discovered)
    (h : TCInv discovered max_count st) :
    TCInv discovered max_count (tcFirstStep pl max_count st d) := by
  by_cases hdone : st.done = true
  · simpa [tcFirstStep, hdone] using h
  · have hdone' : st.done = false := by simpa using hdone
    obtain ⟨h1, h2, h3, h4, h5⟩ := h
    by_cases hc : ((ToLower d = pl || strContains (ToLower d) pl) &&
        !st.used.contains d) = true
    · have hnotin : d ∉ st.used := by
        have h' := hc
        simp only [Bool.and_eq_true, Bool.not_eq_true'] at h'
        simpa using h'.2
      have hp := tcPush_inv hd hnotin ⟨h1, h2, h3, h4, h5⟩ hdone'
      simp only [tcFirstStep, hdone', Bool.false_eq_true, if_false, hc, if_true]
      exact tcCheck_inv hp.1 hp.2.1 hp.2.2.1 hp.2.2.2
    · simp only [tcFirstStep, hdone', Bool.false_eq_true, if_false, hc, if_false]
      exact tcCheck_inv h1 h2 h3 h4

/-- One second-pass iteration keeps the invariant. -/
theorem tcSecondStep_inv {discovered : List String} {max_count : Nat}
    {st : TCState} {d : String} (hd : d ∈ discovered)
    (h : TCInv discovered max_count st) :
    TCInv discovered max_count (tcSecondStep max_count st d) := by
  by_cases hdone : st.done = true
  · simpa [tcSecondStep, hdone] using h
  · have hdone' : st.done = false := by simpa using hdone
    obtain ⟨h1, h2, h3, h4, h5⟩ := h
    by_cases hc : (!st.used.contains d) = true
    · have hnotin : d ∉ st.used := by simpa using hc
      have hp := tcPush_inv hd hnotin ⟨h1, h2, h3, h4, h5⟩ hdone'
      simp only [tcSecondStep, hdone', Bool.false_eq_true, if_false, hc, if_true]
      exact tcCheck_inv hp.1 hp.2.1 hp.2.2.1 hp.2.2.2
    · simp only [tcSecondStep, hdone', Bool.false_eq_true, if_false, hc, if_false]
      exact ⟨h1, h2, h3, h4, h5⟩

/-- The result of `TopCandidates` has no duplicates, respects the corrected
length bound, and draws only on discovered ids. -/
theorem topCandidates_inv (discovered preferred : List String) (max_count : Nat) :
    (TopCandidates discovered preferred max_count).Nodup ∧
    (TopCandidates discovered preferred max_count).length ≤ max max_count 1 ∧
    ∀ x ∈ TopCandidates discovered preferred max_count, x ∈ discovered := by
  have hinit : TCInv discovered max_count {} := by
    refine ⟨by simp, by simp, by simp, by simp, fun _ => by simp⟩
  have h1 : TCInv discovered max_count (preferred.foldl
      (fun st pref => discovered.foldl (tcFirstStep (ToLower pref) max_count) st)
      ({} : TCState)) :=
    List.foldlRecOn preferred _ ({} : TCState) hinit
      (fun st hst pref _ =>
        List.foldlRecOn discovered _ st hst
          (fun st2 hst2 d hd => tcFirstStep_inv (ToLower pref) hd hst2))
  have h2 : TCInv discovered max_count (discovered.foldl (tcSecondStep max_count)
      (preferred.foldl
        (fun st pref => discovered.foldl (tcFirstStep (ToLower pref) max_count) st)
        ({} : TCState))) :=
    List.foldlRecOn discovered _ _ h1 (fun st2 hst2 d hd => tcSecondStep_inv hd hst2)
  obtain ⟨n1, n2, n3, n4, _⟩ := h2
  exact ⟨n1, n4, n3⟩

/-! ### The threaded `scan` of `ExtractMaxContext` versus collected candidates -/

mutual
/-- Threading `best` through `scanJ` is folding `max` over the candidates. -/
theorem scanJ_eq : ∀ (j : Json) (k : String) (b : Int),
    scanJ j k b = (candsJ j).foldl max b
  | .obj kvs, _, b => by simp [scanJ, candsJ, scanObj_eq kvs b]
  | .arr xs, k, b => by simp [scanJ, candsJ, scanArr_eq xs k b]
  | .null, _, b => by simp [scanJ, candsJ]
  | .jbool _, _, b => by simp [scanJ, candsJ]
  | .num _, _, b => by simp [scanJ, candsJ]
  | .flt, _, b => by simp [scanJ, candsJ]
  | .str _, _, b => by simp [scanJ, candsJ]
/-- Object case of `scanJ_eq`. -/
theorem scanObj_eq : ∀ (kvs : JObj) (b : Int),
    scanObj kvs b = (candsObj kvs).foldl max b
  | .nil, b => by simp [scanObj, candsObj]
  | .cons k v rest, b => by
    simp only [scanObj, candsObj]
    rw [scanObj_eq rest, scanJ_eq v]
    cases v <;> simp [List.foldl_append]
    split <;> simp [List.foldl_append]
/-- Array case of `scanJ_eq`. -/
theorem scanArr_eq : ∀ (xs : JArr) (k : String) (b : Int),
    scanArr xs k b = (candsArr xs).foldl max b
  | .nil, _, b => by simp [scanArr, candsArr]
  | .cons item rest, k, b => by
    simp only [scanArr, candsArr]
    rw [scanArr_eq rest k, scanJ_eq item]
    simp [List.foldl_append]
end

/-- The nested-object tower drives the scan `n + 1` frames deep. -/
theorem depth_nestObj : ∀ n, depthJ (nestObj n) = n + 1
  | 0 => rfl
  | n + 1 => by
    simp only [nestObj, depthJ, depthObj, depth_nestObj n]
    omega

/-! ### `ChooseModel` lemmas -/

/-- A hit of the preferred-name walk lies in the discovered list. -/
theorem chooseFromPrefs_mem : ∀ {preferred : List String}
    {discovered : List String} {d : String},
    chooseFromPrefs discovered preferred = some d → d ∈ discovered
  | [], _, _, h => by simp [chooseFromPrefs] at h
  | pref :: rest, discovered, d, h => by
    simp only [chooseFromPrefs] at h
    cases hf : discovered.find? (fun x => chooseMatch x (ToLower pref)) with
    | some e =>
      rw [hf] at h
      cases h
      exact List.mem_of_find?_eq_some hf
    | none =>
      rw [hf] at h
      exact chooseFromPrefs_mem h

/-- `ChooseModel` over a non-empty discovered list returns a discovered id. -/
theorem chooseModel_mem {discovered preferred : List String}
    (h : discovered ≠ []) : ChooseModel discovered preferred ∈ discovered := by
  unfold ChooseModel
  rw [if_neg (by simpa using h)]
  cases hc : chooseFromPrefs discovered preferred with
  | some d => exact chooseFromPrefs_mem hc
  | none =>
    cases discovered with
    | nil => exact absurd rfl h
    | cons a as => simp

/-! ### Claim theorems: JSON miner, ranker, scorer, metrics, headers -/

/-- C9: `ExtractModelIds` never returns duplicate identifiers, and its
result holds exactly the ids collected from a top-level array or the
`data`/`models` array fields (set semantics). -/
theorem claim_extractmodelids_nodup :
    ∀ j : Json, (ExtractModelIds j).Nodup ∧
      (∀ x, x ∈ ExtractModelIds j ↔ x ∈ modelIdCandidates j) :=
  fun _ => ⟨dedupSort_nodup _, fun _ => mem_dedupSort⟩

/-- C3: the scan of `ExtractMaxContext` is total (it is a Lean function) and
returns the `max`-fold of the candidate values over the sentinel -1; but it is
NOT depth-bounded: its recursion depth on the nested input `nestObj 101` is
102, and no fixed bound caps it over all inputs — the defensive depth limit
the spec requires is absent from the code. -/
theorem claim_extractmaxcontext_depth :
    (∀ j k b, scanJ j k b = (candsJ j).foldl max b) ∧
    (∀ j, ExtractMaxContext j = (candsJ j).foldl max (-1)) ∧
    depthJ (nestObj 101) = 102 ∧
    ¬ ∃ D : Nat, ∀ j : Json, depthJ j ≤ D := by
  refine ⟨scanJ_eq, fun j => scanJ_eq j "" (-1), by simpa using depth_nestObj 101, ?_⟩
  rintro ⟨D, hD⟩
  have h := hD (nestObj (D + 1))
  rw [depth_nestObj] at h
  omega

/-- C4 (counterexample): on a header map whose key is not already lower-case,
the code keeps nothing, while the claimed lower-cased matching keeps the
entry — the source matches the raw key case-sensitively. -/
theorem claim_ratelimitheaders_counterexample :
    RateLimitHeaders [("X-RateLimit-Remaining", "10"), ("content-type", "json")] = [] ∧
    specLowerRateLimitHeaders
        [("X-RateLimit-Remaining", "10"), ("content-type", "json")] =
      [("X-RateLimit-Remaining", "10")] := by decide

/-- C4 (amended): `RateLimitHeaders` keeps exactly the entries whose key, as
given, contains "rate", "limit", "quota" or "retry" (case-sensitively); on
maps whose keys are already lower-case — as the HTTP layer delivers them —
this coincides with the spec's lower-cased matching, and the spec's example
holds. -/
theorem claim_ratelimitheaders_amended :
    (∀ (headers : List (String × String)) k v,
      (k, v) ∈ RateLimitHeaders headers ↔ ((k, v) ∈ headers ∧ rlKeyHit k = true)) ∧
    (∀ headers : List (String × String), (∀ kv ∈ headers, ToLower kv.1 = kv.1) →
      RateLimitHeaders headers = specLowerRateLimitHeaders headers) ∧
    RateLimitHeaders [("x-ratelimit-remaining", "10"), ("content-type", "json")] =
      [("x-ratelimit-remaining", "10")] := by
  refine ⟨?_, ?_, by decide⟩
  · intro headers k v
    simp [RateLimitHeaders, List.mem_filter]
  · intro headers h
    unfold RateLimitHeaders specLowerRateLimitHeaders
    refine (List.filter_congr ?_).symm
    intro kv hkv
    rw [h kv hkv]

/-- C4 (witness): the amended lower-case agreement applied at a concrete
all-lower-case header map. -/
theorem claim_ratelimitheaders_witness :
    RateLimitHeaders [("x-ratelimit-remaining", "10"), ("content-type", "json")] =
      specLowerRateLimitHeaders
        [("x-ratelimit-remaining", "10"), ("content-type", "json")] :=
  claim_ratelimitheaders_amended.2.1
    [("x-ratelimit-remaining", "10"), ("content-type", "json")] (by decide)

/-- C2 (counterexample): with `maxCount = 0` the result can still hold one
element (refuting length ≤ maxCount), and on `(["A","B1","B2"], ["B"], 3)`
the first pass takes BOTH matches of "B" before the fill pass, while the
claim's first-match-per-preferred-entry reading yields a different order. -/
theorem claim_topcandidates_counterexample :
    (TopCandidates ["A"] [] 0).length = 1 ∧
    TopCandidates ["A", "B1", "B2"] ["B"] 3 = ["B1", "B2", "A"] ∧
    claimTopCandidates ["A", "B1", "B2"] ["B"] 3 = ["B1", "A", "B2"] := by decide

/-- C2 (amended): `TopCandidates` returns a duplicate-free list drawn from
the discovered ids of length at most `max maxCount 1` — so at most `maxCount`
whenever `maxCount ≥ 1`; its first pass takes every not-yet-used
case-insensitive match per preferred entry in discovered order (not just the
first), the second pass fills with unused ids in order, stopping once
`maxCount` is reached; the spec's example holds. -/
theorem claim_topcandidates_amended :
    (∀ discovered preferred max_count,
      (TopCandidates discovered preferred max_count).Nodup ∧
      (∀ x ∈ TopCandidates discovered preferred max_count, x ∈ discovered) ∧
      (TopCandidates discovered preferred max_count).length ≤ max max_count 1 ∧
      (1 ≤ max_count →
        (TopCandidates discovered preferred max_count).length ≤ max_count)) ∧
    TopCandidates ["A", "B", "C"] ["B"] 2 = ["B", "A"] := by
  refine ⟨fun discovered preferred max_count => ?_, by decide⟩
  obtain ⟨hn, hl, hs⟩ := topCandidates_inv discovered preferred max_count
  exact ⟨hn, hs, hl, fun h1 => by omega⟩

/-- C2 (witness): the amended statement applied at the spec's example
input. -/
theorem claim_topcandidates_witness :
    (TopCandidates ["A", "B", "C"] ["B"] 2).Nodup ∧
    (TopCandidates ["A", "B", "C"] ["B"] 2).length ≤ 2 :=
  ⟨(claim_topcandidates_amended.1 ["A", "B", "C"] ["B"] 2).1,
   (claim_topcandidates_amended.1 ["A", "B", "C"] ["B"] 2).2.2.2 (by decide)⟩

/-- C7: `ChooseModel` returns "" on empty discovery; with no preferred match
it falls back to the first discovered id; preferred names are walked in
order, a name with no match is skipped, the first name with a match returns
that name's first matching discovered id; the result always lies in the
discovered list; and the spec's two examples hold. -/
theorem claim_choosemodel :
    (∀ preferred, ChooseModel [] preferred = "") ∧
    (∀ d ds, ChooseModel (d :: ds) [] = d) ∧
    (∀ discovered pref rest, discovered ≠ [] →
      (∀ x ∈ discovered, chooseMatch x (ToLower pref) = false) →
      ChooseModel discovered (pref :: rest) = ChooseModel discovered rest) ∧
    (∀ discovered pref rest d,
      discovered.find? (fun x => chooseMatch x (ToLower pref)) = some d →
      ChooseModel discovered (pref :: rest) = d) ∧
    (∀ discovered preferred, discovered ≠ [] →
      ChooseModel discovered preferred ∈ discovered) ∧
    ChooseModel [] ["anything"] = "" ∧ ChooseModel ["A", "B"] [] = "A" := by
  refine ⟨fun preferred => by simp [ChooseModel], fun d ds => by
    simp [ChooseModel, chooseFromPrefs], ?_, ?_, fun _ _ h => chooseModel_mem h,
    by decide, by decide⟩
  · intro discovered pref rest hne hno
    have hf : discovered.find? (fun x => chooseMatch x (ToLower pref)) = none := by
      apply List.find?_eq_none.mpr
      intro x hx
      simp [hno x hx]
    unfold ChooseModel
    rw [if_neg (by simpa using hne), if_neg (by simpa using hne)]
    simp only [chooseFromPrefs, hf]
  · intro discovered pref rest d hf
    have hne : discovered ≠ [] := by
      intro h
      subst h
      simp at hf
    unfold ChooseModel
    rw [if_neg (by simpa using hne)]
    simp only [chooseFromPrefs, hf]

/-- C7 (witness): the membership clause applied at a concrete input. -/
theorem claim_choosemodel_witness :
    ChooseModel ["A", "B"] ["b"] ∈ ["A", "B"] :=
  claim_choosemodel.2.2.2.2.1 ["A", "B"] ["b"] (by decide)

/-- A provider audit holding the three prompt answers, for scoring. -/
def mkScoreAudit (r c a : String) : ProviderAudit :=
  { initProviderAudit with prompt_tests := [
      { name := "reasoning", answer := r },
      { name := "coding", answer := c },
      { name := "axui", answer := a } ] }

/-- C6: `ScoreProvider` awards reasoning/coding points by the literal
patterns on the lower-cased answers, axui scores 2 on both identifiers and
1 on exactly one, and the total is the sum; the spec's four examples hold. -/
theorem claim_scorer :
    (∀ p : ProviderAudit,
      (ScoreProvider p).score_reasoning =
        (if strContains (promptAnswer p "reasoning") "5 minute" ||
            promptAnswer p "reasoning" = "5" ||
            strContains (promptAnswer p "reasoning") "five minutes" then 1 else 0) ∧
      (ScoreProvider p).score_coding =
        (if strContains (promptAnswer p "coding") "[::-1]" ||
            strContains (promptAnswer p "coding") "reversed(" then 1 else 0) ∧
      (ScoreProvider p).score_axui =
        (if strContains (promptAnswer p "axui") "close_popup" &&
            strContains (promptAnswer p "axui") "btn_continue" then 2
         else if strContains (promptAnswer p "axui") "close_popup" ||
            strContains (promptAnswer p "axui") "btn_continue" then 1
         else 0) ∧
      ((strContains (promptAnswer p "axui") "close_popup" ≠
          strContains (promptAnswer p "axui") "btn_continue") →
        (ScoreProvider p).score_axui = 1) ∧
      (ScoreProvider p).score_total = (ScoreProvider p).score_reasoning +
        (ScoreProvider p).score_coding + (ScoreProvider p).score_axui) ∧
    (ScoreProvider (mkScoreAudit "The answer is 5 minutes." "" "")).score_reasoning = 1 ∧
    (ScoreProvider (mkScoreAudit "" "return s[::-1]" "")).score_coding = 1 ∧
    (ScoreProvider (mkScoreAudit "" "" "click close_popup")).score_axui = 1 ∧
    (ScoreProvider (mkScoreAudit "" "" "close_popup then btn_continue")).score_axui = 2 := by
  refine ⟨fun p => ⟨rfl, rfl, rfl, ?_, rfl⟩, by decide, by decide, by decide, by decide⟩
  intro hne
  show (if strContains (promptAnswer p "axui") "close_popup" &&
      strContains (promptAnswer p "axui") "btn_continue" then 2
    else if strContains (promptAnswer p "axui") "close_popup" ||
      strContains (promptAnswer p "axui") "btn_continue" then 1 else 0) = 1
  cases h1 : strContains (promptAnswer p "axui") "close_popup" <;>
    cases h2 : strContains (promptAnswer p "axui") "btn_continue" <;>
      simp_all

/-- C6 (witness): the exactly-one clause applied at a concrete audit. -/
theorem claim_scorer_witness :
    (ScoreProvider (mkScoreAudit "" "" "press close_popup")).score_axui = 1 :=
  (claim_scorer.1 (mkScoreAudit "" "" "press close_popup")).2.2.2.1 (by decide)

/-- A trace carrying only a latency, for the metrics examples. -/
def latTrace (n : Int) : RequestTrace := { latency_ms := n }

/-- C8: `FinalizeMetrics` sets the average to the truncating integer mean of
the non-negative recorded latencies and leaves the field untouched (hence at
its initial sentinel -1) when none exist; the spec's two examples hold. -/
theorem claim_finalizemetrics :
    (∀ p : ProviderAudit,
      (nonnegLats p = [] → (FinalizeMetrics p).avg_latency_ms = p.avg_latency_ms) ∧
      (nonnegLats p ≠ [] → (FinalizeMetrics p).avg_latency_ms =
        (nonnegLats p).sum / ((nonnegLats p).length : Int))) ∧
    initProviderAudit.avg_latency_ms = -1 ∧
    (FinalizeMetrics { initProviderAudit with
      request_traces := [latTrace 10, latTrace 20, latTrace 30] }).avg_latency_ms = 20 ∧
    (FinalizeMetrics initProviderAudit).avg_latency_ms = -1 := by
  refine ⟨fun p => ⟨?_, ?_⟩, by decide, by decide, by decide⟩
  · intro h
    simp [FinalizeMetrics, h]
  · intro h
    simp [FinalizeMetrics, h]

/-- C8 (witness): both clauses applied at concrete audits. -/
theorem claim_finalizemetrics_witness :
    (FinalizeMetrics { initProviderAudit with
      request_traces := [latTrace 10, latTrace 20, latTrace 30] }).avg_latency_ms =
      (nonnegLats { initProviderAudit with
        request_traces := [latTrace 10, latTrace 20, latTrace 30] }).sum /
        ((nonnegLats { initProviderAudit with
          request_traces := [latTrace 10, latTrace 20, latTrace 30] }).length : Int) ∧
    (FinalizeMetrics initProviderAudit).avg_latency_ms =
      initProviderAudit.avg_latency_ms :=
  ⟨(claim_finalizemetrics.1 _).2 (by decide), (claim_finalizemetrics.1 _).1 (by decide)⟩

/-! ### Field-preservation lemmas -/

@[simp] theorem addTrace_model_checks (p : ProviderAudit) (s m u : String)
    (r : HttpResponse) : (AddTrace p s m u r).model_checks = p.model_checks := rfl

@[simp] theorem addTrace_working_models (p : ProviderAudit) (s m u : String)
    (r : HttpResponse) : (AddTrace p s m u r).working_models = p.working_models := rfl

@[simp] theorem addTrace_failing_models (p : ProviderAudit) (s m u : String)
    (r : HttpResponse) : (AddTrace p s m u r).failing_models = p.failing_models := rfl

@[simp] theorem addTrace_model_used (p : ProviderAudit) (s m u : String)
    (r : HttpResponse) : (AddTrace p s m u r).model_used = p.model_used := rfl

@[simp] theorem addTrace_prompt_tests (p : ProviderAudit) (s m u : String)
    (r : HttpResponse) : (AddTrace p s m u r).prompt_tests = p.prompt_tests := rfl

@[simp] theorem addTrace_total (p : ProviderAudit) (s m u : String)
    (r : HttpResponse) : (AddTrace p s m u r).total_requests = p.total_requests + 1 := rfl

@[simp] theorem addTrace_traces_len (p : ProviderAudit) (s m u : String)
    (r : HttpResponse) :
    (AddTrace p s m u r).request_traces.length = p.request_traces.length + 1 := by
  simp [AddTrace]

theorem addTrace_succ_fail (p : ProviderAudit) (s m u : String) (r : HttpResponse) :
    (if traceOk r then
      (AddTrace p s m u r).successful_requests = p.successful_requests + 1 ∧
      (AddTrace p s m u r).failed_requests = p.failed_requests
     else
      (AddTrace p s m u r).successful_requests = p.successful_requests ∧
      (AddTrace p s m u r).failed_requests = p.failed_requests + 1) := by
  by_cases h : traceOk r <;> simp [AddTrace, h]

@[simp] theorem finalizeMetrics_model_checks (p : ProviderAudit) :
    (FinalizeMetrics p).model_checks = p.model_checks := by
  simp only [FinalizeMetrics]; split <;> rfl

@[simp] theorem finalizeMetrics_working_models (p : ProviderAudit) :
    (FinalizeMetrics p).working_models = p.working_models := by
  simp only [FinalizeMetrics]; split <;> rfl

@[simp] theorem finalizeMetrics_failing_models (p : ProviderAudit) :
    (FinalizeMetrics p).failing_models = p.failing_models := by
  simp only [FinalizeMetrics]; split <;> rfl

@[simp] theorem finalizeMetrics_model_used (p : ProviderAudit) :
    (FinalizeMetrics p).model_used = p.model_used := by
  simp only [FinalizeMetrics]; split <;> rfl

@[simp] theorem finalizeMetrics_total (p : ProviderAudit) :
    (FinalizeMetrics p).total_requests = p.total_requests := by
  simp only [FinalizeMetrics]; split <;> rfl

@[simp] theorem finalizeMetrics_succ (p : ProviderAudit) :
    (FinalizeMetrics p).successful_requests = p.successful_requests := by
  simp only [FinalizeMetrics]; split <;> rfl

@[simp] theorem finalizeMetrics_fail (p : ProviderAudit) :
    (FinalizeMetrics p).failed_requests = p.failed_requests := by
  simp only [FinalizeMetrics]; split <;> rfl

@[simp] theorem finalizeMetrics_traces (p : ProviderAudit) :
    (FinalizeMetrics p).request_traces = p.request_traces := by
  simp only [FinalizeMetrics]; split <;> rfl

@[simp] theorem scoreProvider_model_checks (p : ProviderAudit) :
    (ScoreProvider p).model_checks = p.model_checks := rfl

@[simp] theorem scoreProvider_working_models (p : ProviderAudit) :
    (ScoreProvider p).working_models = p.working_models := rfl

@[simp] theorem scoreProvider_failing_models (p : ProviderAudit) :
    (ScoreProvider p).failing_models = p.failing_models := rfl

@[simp] theorem scoreProvider_model_used (p : ProviderAudit) :
    (ScoreProvider p).model_used = p.model_used := rfl

@[simp] theorem scoreProvider_total (p : ProviderAudit) :
    (ScoreProvider p).total_requests = p.total_requests := rfl

@[simp] theorem scoreProvider_succ (p : ProviderAudit) :
    (ScoreProvider p).successful_requests = p.successful_requests := rfl

@[simp] theorem scoreProvider_fail (p : ProviderAudit) :
    (ScoreProvider p).failed_requests = p.failed_requests := rfl

@[simp] theorem scoreProvider_traces (p : ProviderAudit) :
    (ScoreProvider p).request_traces = p.request_traces := rfl

/-! ### The rebalancing counter invariant (C1) -/

/-- The counter invariant of a `ProviderAudit`: the total splits into
successes and failures, and counts the recorded traces. -/
def CounterInv (p : ProviderAudit) : Prop :=
  p.total_requests = p.successful_requests + p.failed_requests ∧
  p.total_requests = p.request_traces.length

theorem counterInv_init : CounterInv initProviderAudit := ⟨rfl, rfl⟩

theorem counterInv_addTrace {p : ProviderAudit} (h : CounterInv p)
    (s m u : String) (r : HttpResponse) : CounterInv (AddTrace p s m u r) := by
  obtain ⟨h1, h2⟩ := h
  have hsf := addTrace_succ_fail p s m u r
  by_cases hok : traceOk r
  · rw [if_pos hok] at hsf
    exact ⟨by rw [addTrace_total, hsf.1, hsf.2]; omega,
      by rw [addTrace_total, addTrace_traces_len]; omega⟩
  · rw [if_neg hok] at hsf
    exact ⟨by rw [addTrace_total, hsf.1, hsf.2]; omega,
      by rw [addTrace_total, addTrace_traces_len]; omega⟩

theorem counterInv_finalize {p : ProviderAudit} (h : CounterInv p) :
    CounterInv (FinalizeMetrics p) := by
  obtain ⟨h1, h2⟩ := h
  exact ⟨by simpa using h1, by simpa using h2⟩

theorem counterInv_score {p : ProviderAudit} (h : CounterInv p) :
    CounterInv (ScoreProvider p) := h

/-- An arbitrary sequence of `AddTrace` calls applied in order — counters and
traces are mutated nowhere else in the engine. -/
def applyTraces (p : ProviderAudit) :
    List (String × String × String × HttpResponse) → ProviderAudit
  | [] => p
  | (s, m, u, r) :: rest => applyTraces (AddTrace p s m u r) rest

theorem counterInv_applyTraces : ∀ (calls : List (String × String × String × HttpResponse))
    {p : ProviderAudit}, CounterInv p → CounterInv (applyTraces p calls)
  | [], _, h => h
  | (s, m, u, r) :: rest, _, h =>
    counterInv_applyTraces rest (counterInv_addTrace h s m u r)

theorem counterInv_checkLoop (send : Nat → HttpResponse) (cancel : Nat → Bool)
    (urlOf : String → String) (extract : Json → String) :
    ∀ (ms : List String) (p : ProviderAudit) (ri ci : Nat), CounterInv p →
    CounterInv (checkLoop send cancel urlOf extract ms p ri ci).1
  | [], _, _, _, h => h
  | model :: rest, p, ri, ci, h => by
    by_cases hc : cancel ci = true
    · simp only [checkLoop, hc, if_true]
      exact counterInv_finalize h
    · have hc' : cancel ci = false := by simpa using hc
      simp only [checkLoop, hc', Bool.false_eq_true, if_false]
      exact counterInv_checkLoop send cancel urlOf extract rest _ _ _
        (counterInv_addTrace h _ _ _ _)

theorem counterInv_promptLoop (send : Nat → HttpResponse) (cancel : Nat → Bool)
    (url : String) (extract : Json → String) :
    ∀ (names : List String) (p : ProviderAudit) (ri ci : Nat), CounterInv p →
    CounterInv (promptLoop send cancel url extract names p ri ci).1
  | [], _, _, _, h => h
  | name :: rest, p, ri, ci, h => by
    by_cases hc : cancel ci = true
    · simp only [promptLoop, hc, if_true]
      exact counterInv_finalize h
    · have hc' : cancel ci = false := by simpa using hc
      simp only [promptLoop, hc', Bool.false_eq_true, if_false]
      exact counterInv_promptLoop send cancel url extract rest _ _ _
        (counterInv_addTrace h _ _ _ _)

theorem counterInv_openAIPreCheck (pid pname key lu : String)
    (list_resp : HttpResponse) :
    CounterInv (openAIPreCheck pid pname key lu list_resp) :=
  counterInv_addTrace (p := { initProviderAudit with
    provider_id := pid, provider_name := pname, api_key := key,
    key_supplied := key != "" }) ⟨rfl, rfl⟩ "list_models" "GET" lu list_resp

theorem counterInv_googlePreCheck (key : String) (list_resp : HttpResponse) :
    CounterInv (googlePreCheck key list_resp) :=
  counterInv_addTrace (p := { initProviderAudit with
    provider_id := "google_ai_studio", provider_name := "Google AI Studio",
    api_key := key, key_supplied := key != "" }) ⟨rfl, rfl⟩
    "list_models" "GET" (googleListUrl key) list_resp

theorem counterInv_auditOpenAICore (pid pname key lu cu : String)
    (pref eh : List String) (send : Nat → HttpResponse) (cancel : Nat → Bool)
    (ri ci : Nat) :
    CounterInv (AuditOpenAICompatibleCore pid pname key lu cu pref eh send cancel
      ri ci).1 := by
  have h5 := counterInv_checkLoop send cancel (fun _ => cu) ExtractOpenAIText
    (TopCandidates (ExtractModelIds (send ri).bodyJson) pref 8)
    (openAIPreCheck pid pname key lu (send ri)) (ri + 1) ci
    (counterInv_openAIPreCheck pid pname key lu (send ri))
  simp only [AuditOpenAICompatibleCore]
  split
  · exact ⟨rfl, rfl⟩
  · split
    · exact counterInv_finalize (counterInv_openAIPreCheck pid pname key lu (send ri))
    · split
      · exact h5
      · split <;> split <;>
          first
            | (apply counterInv_promptLoop; exact h5)
            | (apply counterInv_finalize; apply counterInv_score;
               apply counterInv_promptLoop; exact h5)

theorem counterInv_auditGoogleCore (key : String) (send : Nat → HttpResponse)
    (cancel : Nat → Bool) (ri ci : Nat) :
    CounterInv (AuditGoogleCore key send cancel ri ci).1 := by
  have h5 := counterInv_checkLoop send cancel (googleChatUrl key) ExtractGoogleText
    (TopCandidates (googleDiscovered (send ri).bodyJson) googlePreferred 8)
    (googlePreCheck key (send ri)) (ri + 1) ci
    (counterInv_googlePreCheck key (send ri))
  simp only [AuditGoogleCore]
  split
  · exact ⟨rfl, rfl⟩
  · split
    · exact counterInv_finalize (counterInv_googlePreCheck key (send ri))
    · split
      · exact h5
      · split <;> split <;>
          first
            | (apply counterInv_promptLoop; exact h5)
            | (apply counterInv_finalize; apply counterInv_score;
               apply counterInv_promptLoop; exact h5)

/-- A successful concrete Sender result, for witnesses. -/
def okResp : HttpResponse := { status := 200, latency_ms := 1 }

/-- C1: every `AddTrace` call appends exactly one `RequestTrace`, increments
`total_requests` by one, and increments `successful_requests` iff the status
is in [200,300) with an empty transport error, else `failed_requests`; hence
`total_requests = successful_requests + failed_requests` (and `=` the trace
count) after any sequence of calls from a fresh audit — counters and traces
are mutated nowhere else — and at the end of every OpenAI-compatible and
Google adapter run. -/
theorem claim_addtrace_counter_invariant :
    (∀ (p : ProviderAudit) (s m u : String) (r : HttpResponse),
      (AddTrace p s m u r).request_traces.length = p.request_traces.length + 1 ∧
      (AddTrace p s m u r).total_requests = p.total_requests + 1 ∧
      (traceOk r →
        (AddTrace p s m u r).successful_requests = p.successful_requests + 1 ∧
        (AddTrace p s m u r).failed_requests = p.failed_requests) ∧
      (¬ traceOk r →
        (AddTrace p s m u r).failed_requests = p.failed_requests + 1 ∧
        (AddTrace p s m u r).successful_requests = p.successful_requests)) ∧
    (∀ calls, CounterInv (applyTraces initProviderAudit calls)) ∧
    (∀ pid pname key lu cu pref eh send cancel ri ci,
      CounterInv (AuditOpenAICompatibleCore pid pname key lu cu pref eh send cancel
        ri ci).1) ∧
    (∀ key send cancel ri ci, CounterInv (AuditGoogleCore key send cancel ri ci).1) := by
  refine ⟨fun p s m u r => ⟨addTrace_traces_len p s m u r, rfl, ?_, ?_⟩,
    fun calls => counterInv_applyTraces calls counterInv_init,
    counterInv_auditOpenAICore, counterInv_auditGoogleCore⟩
  · intro hok
    have h := addTrace_succ_fail p s m u r
    rwa [if_pos hok] at h
  · intro hok
    have h := addTrace_succ_fail p s m u r
    rw [if_neg hok] at h
    exact ⟨h.2, h.1⟩

/-- C1 (witness): the per-call clauses applied at a concrete successful
response on a fresh audit. -/
theorem claim_addtrace_counter_invariant_witness :
    (AddTrace initProviderAudit "list_models" "GET" "u" okResp).successful_requests =
      initProviderAudit.successful_requests + 1 ∧
    (AddTrace initProviderAudit "list_models" "GET" "u" okResp).failed_requests =
      initProviderAudit.failed_requests :=
  (claim_addtrace_counter_invariant.1 initProviderAudit "list_models" "GET" "u"
    okResp).2.2.1 (by decide)

/-! ### Closed form of the model-check loop (C10) -/

/-- The `ModelCheck` each candidate produces, in check order, with Sender
requests numbered from `ri`. -/
def checkedMCs (send : Nat → HttpResponse) (extract : Json → String) :
    List String → Nat → List ModelCheck
  | [], _ => []
  | m :: rest, ri => mkModelCheck extract m (send ri) :: checkedMCs send extract rest (ri + 1)

theorem checkedMCs_map_model (send : Nat → HttpResponse) (extract : Json → String) :
    ∀ (ms : List String) (ri : Nat),
    (checkedMCs send extract ms ri).map (fun c => c.model) = ms
  | [], _ => rfl
  | m :: rest, ri => by
    simp [checkedMCs, mkModelCheck, checkedMCs_map_model send extract rest (ri + 1)]

theorem checkedMCs_get_working (send : Nat → HttpResponse) (extract : Json → String) :
    ∀ (ms : List String) (ri : Nat) (c : ModelCheck),
    c ∈ checkedMCs send extract ms ri →
    ∃ k, k < ms.length ∧ c = mkModelCheck extract (ms.getD k "") (send (ri + k))
  | [], _, _, h => by simp [checkedMCs] at h
  | m :: rest, ri, c, h => by
    rcases List.mem_cons.mp h with rfl | h'
    · exact ⟨0, by simp, by simp⟩
    · obtain ⟨k, hk, hc⟩ := checkedMCs_get_working send extract rest (ri + 1) c h'
      refine ⟨k + 1, by simpa using Nat.succ_lt_succ hk, ?_⟩
      have : ri + 1 + k = ri + (k + 1) := by omega
      rw [← this]
      simpa using hc

/-- The model-check loop with cancellation never firing, written as a plain
recursion (what the loop body does candidate by candidate). -/
def checkRun (send : Nat → HttpResponse) (urlOf : String → String)
    (extract : Json → String) : List String → ProviderAudit → Nat → ProviderAudit
  | [], p, _ => p
  | m :: rest, p, ri =>
    let resp := send ri
    let p1 := AddTrace p ("model_check:" ++ m) "POST" (urlOf m) resp
    let mc := mkModelCheck extract m resp
    let p2 : ProviderAudit := { p1 with
      model_checks := p1.model_checks ++ [mc],
      working_models :=
        if mc.working then p1.working_models ++ [m] else p1.working_models,
      failing_models :=
        if mc.working then p1.failing_models else p1.failing_models ++ [m] }
    checkRun send urlOf extract rest p2 (ri + 1)

/-- When no cancellation read during the loop returns true, `checkLoop` is
exactly `checkRun` plus the consumed ordinals. -/
theorem checkLoop_noCancel (send : Nat → HttpResponse) (cancel : Nat → Bool)
    (urlOf : String → String) (extract : Json → String) :
    ∀ (ms : List String) (p : ProviderAudit) (ri ci : Nat),
    (∀ k, k < ms.length → cancel (ci + k) = false) →
    checkLoop send cancel urlOf extract ms p ri ci =
      (checkRun send urlOf extract ms p ri, ri + ms.length, ci + ms.length, false)
  | [], p, ri, ci, _ => by simp [checkLoop, checkRun]
  | m :: rest, p, ri, ci, h => by
    have h0 : cancel ci = false := by simpa using h 0 (by simp)
    have hrest : ∀ k, k < rest.length → cancel (ci + 1 + k) = false := by
      intro k hk
      have he : ci + 1 + k = ci + (k + 1) := by omega
      rw [he]
      exact h (k + 1) (by simpa using Nat.succ_lt_succ hk)
    simp only [checkLoop, h0, Bool.false_eq_true, if_false, checkRun]
    rw [checkLoop_noCancel send cancel urlOf extract rest _ (ri + 1) (ci + 1) hrest]
    simp only [Prod.mk.injEq, List.length_cons]
    exact ⟨trivial, by omega, by omega, trivial⟩

theorem checkRun_model_checks (send : Nat → HttpResponse) (urlOf : String → String)
    (extract : Json → String) : ∀ (ms : List String) (p : ProviderAudit) (ri : Nat),
    (checkRun send urlOf extract ms p ri).model_checks =
      p.model_checks ++ checkedMCs send extract ms ri
  | [], p, ri => by simp [checkRun, checkedMCs]
  | m :: rest, p, ri => by
    simp only [checkRun, checkedMCs]
    rw [checkRun_model_checks send urlOf extract rest _ (ri + 1)]
    simp

theorem checkRun_working (send : Nat → HttpResponse) (urlOf : String → String)
    (extract : Json → String) : ∀ (ms : List String) (p : ProviderAudit) (ri : Nat),
    (checkRun send urlOf extract ms p ri).working_models =
      p.working_models ++
        ((checkedMCs send extract ms ri).filter (fun c => c.working)).map
          (fun c => c.model)
  | [], p, ri => by simp [checkRun, checkedMCs]
  | m :: rest, p, ri => by
    simp only [checkRun, checkedMCs]
    rw [checkRun_working send urlOf extract rest _ (ri + 1)]
    by_cases hw : respWorking extract (send ri) = true <;>
      simp [hw, mkModelCheck]

theorem checkRun_failing (send : Nat → HttpResponse) (urlOf : String → String)
    (extract : Json → String) : ∀ (ms : List String) (p : ProviderAudit) (ri : Nat),
    (checkRun send urlOf extract ms p ri).failing_models =
      p.failing_models ++
        ((checkedMCs send extract ms ri).filter (fun c => !c.working)).map
          (fun c => c.model)
  | [], p, ri => by simp [checkRun, checkedMCs]
  | m :: rest, p, ri => by
    simp only [checkRun, checkedMCs]
    rw [checkRun_failing send urlOf extract rest _ (ri + 1)]
    by_cases hw : respWorking extract (send ri) = true <;>
      simp [hw, mkModelCheck]

theorem checkRun_model_used (send : Nat → HttpResponse) (urlOf : String → String)
    (extract : Json → String) : ∀ (ms : List String) (p : ProviderAudit) (ri : Nat),
    (checkRun send urlOf extract ms p ri).model_used = p.model_used
  | [], _, _ => rfl
  | m :: rest, p, ri => by
    simp only [checkRun]
    rw [checkRun_model_used send urlOf extract rest _ (ri + 1)]
    rfl

/-- The prompt loop never touches the model-check results or the chosen
model, whichever way it ends. -/
theorem promptLoop_keeps (send : Nat → HttpResponse) (cancel : Nat → Bool)
    (url : String) (extract : Json → String) :
    ∀ (names : List String) (p : ProviderAudit) (ri ci : Nat),
    (promptLoop send cancel url extract names p ri ci).1.model_checks = p.model_checks ∧
    (promptLoop send cancel url extract names p ri ci).1.working_models = p.working_models ∧
    (promptLoop send cancel url extract names p ri ci).1.failing_models = p.failing_models ∧
    (promptLoop send cancel url extract names p ri ci).1.model_used = p.model_used
  | [], p, ri, ci => ⟨rfl, rfl, rfl, rfl⟩
  | name :: rest, p, ri, ci => by
    by_cases hc : cancel ci = true
    · simp [promptLoop, hc]
    · have hc' : cancel ci = false := by simpa using hc
      simp only [promptLoop, hc', Bool.false_eq_true, if_false]
      exact promptLoop_keeps send cancel url extract rest _ (ri + 1) (ci + 1)

/-- Everything after the candidate loop (choice, prompt suite, scoring,
metrics) keeps the model-check results and the chosen model. -/
theorem adapterTail_keeps (send : Nat → HttpResponse) (cancel : Nat → Bool)
    (url : String) (extract : Json → String) (q : ProviderAudit) (ri ci : Nat) :
    (if (promptLoop send cancel url extract kPromptSuite q ri ci).2.2.2 = true then
        ((promptLoop send cancel url extract kPromptSuite q ri ci).1,
         (promptLoop send cancel url extract kPromptSuite q ri ci).2.1,
         (promptLoop send cancel url extract kPromptSuite q ri ci).2.2.1)
      else
        (FinalizeMetrics (ScoreProvider
            (promptLoop send cancel url extract kPromptSuite q ri ci).1),
         (promptLoop send cancel url extract kPromptSuite q ri ci).2.1,
         (promptLoop send cancel url extract kPromptSuite q ri ci).2.2.1)).1.model_checks
        = q.model_checks ∧
    (if (promptLoop send cancel url extract kPromptSuite q ri ci).2.2.2 = true then
        ((promptLoop send cancel url extract kPromptSuite q ri ci).1,
         (promptLoop send cancel url extract kPromptSuite q ri ci).2.1,
         (promptLoop send cancel url extract kPromptSuite q ri ci).2.2.1)
      else
        (FinalizeMetrics (ScoreProvider
            (promptLoop send cancel url extract kPromptSuite q ri ci).1),
         (promptLoop send cancel url extract kPromptSuite q ri ci).2.1,
         (promptLoop send cancel url extract kPromptSuite q ri ci).2.2.1)).1.working_models
        = q.working_models ∧
    (if (promptLoop send cancel url extract kPromptSuite q ri ci).2.2.2 = true then
        ((promptLoop send cancel url extract kPromptSuite q ri ci).1,
         (promptLoop send cancel url extract kPromptSuite q ri ci).2.1,
         (promptLoop send cancel url extract kPromptSuite q ri ci).2.2.1)
      else
        (FinalizeMetrics (ScoreProvider
            (promptLoop send cancel url extract kPromptSuite q ri ci).1),
         (promptLoop send cancel url extract kPromptSuite q ri ci).2.1,
         (promptLoop send cancel url extract kPromptSuite q ri ci).2.2.1)).1.failing_models
        = q.failing_models ∧
    (if (promptLoop send cancel url extract kPromptSuite q ri ci).2.2.2 = true then
        ((promptLoop send cancel url extract kPromptSuite q ri ci).1,
         (promptLoop send cancel url extract kPromptSuite q ri ci).2.1,
         (promptLoop send cancel url extract kPromptSuite q ri ci).2.2.1)
      else
        (FinalizeMetrics (ScoreProvider
            (promptLoop send cancel url extract kPromptSuite q ri ci).1),
         (promptLoop send cancel url extract kPromptSuite q ri ci).2.1,
         (promptLoop send cancel url extract kPromptSuite q ri ci).2.2.1)).1.model_used
        = q.model_used := by
  obtain ⟨h1, h2, h3, h4⟩ := promptLoop_keeps send cancel url extract kPromptSuite q ri ci
  split <;> simp [h1, h2, h3, h4]

theorem openAIPreCheck_model_checks (pid pname key lu : String) (r : HttpResponse) :
    (openAIPreCheck pid pname key lu r).model_checks = [] := rfl

theorem openAIPreCheck_working (pid pname key lu : String) (r : HttpResponse) :
    (openAIPreCheck pid pname key lu r).working_models = [] := rfl

theorem openAIPreCheck_failing (pid pname key lu : String) (r : HttpResponse) :
    (openAIPreCheck pid pname key lu r).failing_models = [] := rfl

theorem googlePreCheck_model_checks (key : String) (r : HttpResponse) :
    (googlePreCheck key r).model_checks = [] := rfl

theorem googlePreCheck_working (key : String) (r : HttpResponse) :
    (googlePreCheck key r).working_models = [] := rfl

theorem googlePreCheck_failing (key : String) (r : HttpResponse) :
    (googlePreCheck key r).failing_models = [] := rfl

/-- Working and failing sub-lists of a duplicate-free check list share no
model id. -/
theorem workFail_disjoint {mcs : List ModelCheck}
    (h : (mcs.map (fun c => c.model)).Nodup) :
    ∀ x ∈ (mcs.filter (fun c => c.working)).map (fun c => c.model),
      x ∉ (mcs.filter (fun c => !c.working)).map (fun c => c.model) := by
  intro x hx hx'
  obtain ⟨c1, hc1, he1⟩ := List.mem_map.mp hx
  obtain ⟨c2, hc2, he2⟩ := List.mem_map.mp hx'
  obtain ⟨hc1m, hw1⟩ := List.mem_filter.mp hc1
  obtain ⟨hc2m, hw2⟩ := List.mem_filter.mp hc2
  have he : c2.model = c1.model := by rw [he1, he2]
  have hcc : c2 = c1 := List.inj_on_of_nodup_map h hc2m hc1m he
  rw [hcc] at hw2
  rw [hw1] at hw2
  simp at hw2

theorem headD_mem {l : List String} (h : ¬ l.isEmpty = true) : l.headD "" ∈ l := by
  cases l with
  | nil => simp at h
  | cons a as => simp

@[simp] theorem promptLoop_model_checks (send : Nat → HttpResponse)
    (cancel : Nat → Bool) (url : String) (extract : Json → String)
    (names : List String) (p : ProviderAudit) (ri ci : Nat) :
    (promptLoop send cancel url extract names p ri ci).1.model_checks =
      p.model_checks :=
  (promptLoop_keeps send cancel url extract names p ri ci).1

@[simp] theorem promptLoop_working (send : Nat → HttpResponse)
    (cancel : Nat → Bool) (url : String) (extract : Json → String)
    (names : List String) (p : ProviderAudit) (ri ci : Nat) :
    (promptLoop send cancel url extract names p ri ci).1.working_models =
      p.working_models :=
  (promptLoop_keeps send cancel url extract names p ri ci).2.1

@[simp] theorem promptLoop_failing (send : Nat → HttpResponse)
    (cancel : Nat → Bool) (url : String) (extract : Json → String)
    (names : List String) (p : ProviderAudit) (ri ci : Nat) :
    (promptLoop send cancel url extract names p ri ci).1.failing_models =
      p.failing_models :=
  (promptLoop_keeps send cancel url extract names p ri ci).2.2.1

@[simp] theorem promptLoop_model_used (send : Nat → HttpResponse)
    (cancel : Nat → Bool) (url : String) (extract : Json → String)
    (names : List String) (p : ProviderAudit) (ri ci : Nat) :
    (promptLoop send cancel url extract names p ri ci).1.model_used =
      p.model_used :=
  (promptLoop_keeps send cancel url extract names p ri ci).2.2.2

/-- The OpenAI-compatible adapter, run with a key, non-empty discovery and no
cancellation during the model-check loop: its checks are one `ModelCheck` per
ranked candidate against the responses in order, its working/failing lists
are the corresponding partition, and `model_used` is the first working model
or the `ChooseModel` fallback. -/
theorem openAICore_checks (pid pname key lu cu : String) (pref eh : List String)
    (send : Nat → HttpResponse) (cancel : Nat → Bool) (ri ci : Nat)
    (hk : ¬ key = "")
    (hd : ¬ (ExtractModelIds (send ri).bodyJson).isEmpty = true)
    (hc : ∀ k, k < (TopCandidates (ExtractModelIds (send ri).bodyJson) pref 8).length →
      cancel (ci + k) = false) :
    (AuditOpenAICompatibleCore pid pname key lu cu pref eh send cancel ri ci).1.model_checks =
      checkedMCs send ExtractOpenAIText
        (TopCandidates (ExtractModelIds (send ri).bodyJson) pref 8) (ri + 1) ∧
    (AuditOpenAICompatibleCore pid pname key lu cu pref eh send cancel ri ci).1.working_models =
      ((checkedMCs send ExtractOpenAIText
        (TopCandidates (ExtractModelIds (send ri).bodyJson) pref 8) (ri + 1)).filter
          (fun c => c.working)).map (fun c => c.model) ∧
    (AuditOpenAICompatibleCore pid pname key lu cu pref eh send cancel ri ci).1.failing_models =
      ((checkedMCs send ExtractOpenAIText
        (TopCandidates (ExtractModelIds (send ri).bodyJson) pref 8) (ri + 1)).filter
          (fun c => !c.working)).map (fun c => c.model) ∧
    (AuditOpenAICompatibleCore pid pname key lu cu pref eh send cancel ri ci).1.model_used =
      (if (((checkedMCs send ExtractOpenAIText
          (TopCandidates (ExtractModelIds (send ri).bodyJson) pref 8) (ri + 1)).filter
            (fun c => c.working)).map (fun c => c.model)).isEmpty
        then ChooseModel (ExtractModelIds (send ri).bodyJson) pref
        else (((checkedMCs send ExtractOpenAIText
          (TopCandidates (ExtractModelIds (send ri).bodyJson) pref 8) (ri + 1)).filter
            (fun c => c.working)).map (fun c => c.model)).headD "") := by
  simp only [AuditOpenAICompatibleCore]
  rw [if_neg hk, if_neg hd, checkLoop_noCancel send cancel (fun _ => cu)
    ExtractOpenAIText _ _ (ri + 1) ci hc]
  dsimp only
  split
  · next hdead => simp at hdead
  · simp only [checkRun_model_checks, checkRun_working, checkRun_failing,
      checkRun_model_used, openAIPreCheck_model_checks, openAIPreCheck_working,
      openAIPreCheck_failing, List.nil_append]
    split <;> split <;>
      simp only [promptLoop_model_checks, promptLoop_working, promptLoop_failing,
        promptLoop_model_used, finalizeMetrics_model_checks,
        finalizeMetrics_working_models, finalizeMetrics_failing_models,
        finalizeMetrics_model_used, scoreProvider_model_checks,
        scoreProvider_working_models, scoreProvider_failing_models,
        scoreProvider_model_used] <;>
      try exact ⟨trivial, trivial, trivial, trivial⟩

/-- `openAICore_checks` for the Google adapter. -/
theorem googleCore_checks (key : String)
    (send : Nat → HttpResponse) (cancel : Nat → Bool) (ri ci : Nat)
    (hk : ¬ key = "")
    (hd : ¬ (googleDiscovered (send ri).bodyJson).isEmpty = true)
    (hc : ∀ k, k < (TopCandidates (googleDiscovered (send ri).bodyJson)
      googlePreferred 8).length → cancel (ci + k) = false) :
    (AuditGoogleCore key send cancel ri ci).1.model_checks =
      checkedMCs send ExtractGoogleText
        (TopCandidates (googleDiscovered (send ri).bodyJson) googlePreferred 8)
        (ri + 1) ∧
    (AuditGoogleCore key send cancel ri ci).1.working_models =
      ((checkedMCs send ExtractGoogleText
        (TopCandidates (googleDiscovered (send ri).bodyJson) googlePreferred 8)
        (ri + 1)).filter (fun c => c.working)).map (fun c => c.model) ∧
    (AuditGoogleCore key send cancel ri ci).1.failing_models =
      ((checkedMCs send ExtractGoogleText
        (TopCandidates (googleDiscovered (send ri).bodyJson) googlePreferred 8)
        (ri + 1)).filter (fun c => !c.working)).map (fun c => c.model) ∧
    (AuditGoogleCore key send cancel ri ci).1.model_used =
      (if (((checkedMCs send ExtractGoogleText
          (TopCandidates (googleDiscovered (send ri).bodyJson) googlePreferred 8)
          (ri + 1)).filter (fun c => c.working)).map (fun c => c.model)).isEmpty
        then ChooseModel (googleDiscovered (send ri).bodyJson) googlePreferred
        else (((checkedMCs send ExtractGoogleText
          (TopCandidates (googleDiscovered (send ri).bodyJson) googlePreferred 8)
          (ri + 1)).filter (fun c => c.working)).map (fun c => c.model)).headD "") := by
  simp only [AuditGoogleCore]
  rw [if_neg hk, if_neg hd, checkLoop_noCancel send cancel (googleChatUrl key)
    ExtractGoogleText _ _ (ri + 1) ci hc]
  dsimp only
  split
  · next hdead => simp at hdead
  · simp only [checkRun_model_checks, checkRun_working, checkRun_failing,
      checkRun_model_used, googlePreCheck_model_checks, googlePreCheck_working,
      googlePreCheck_failing, List.nil_append]
    split <;> split <;>
      simp only [promptLoop_model_checks, promptLoop_working, promptLoop_failing,
        promptLoop_model_used, finalizeMetrics_model_checks,
        finalizeMetrics_working_models, finalizeMetrics_failing_models,
        finalizeMetrics_model_used, scoreProvider_model_checks,
        scoreProvider_working_models, scoreProvider_failing_models,
        scoreProvider_model_used] <;>
      try exact ⟨trivial, trivial, trivial, trivial⟩

/-- C10 (amended): in every OpenAI-compatible or Google adapter run with a
key, non-empty discovery, and no cancellation firing during the model-check
loop, each checked candidate yields exactly one `ModelCheck` (working iff
HTTP 2xx and non-empty extracted answer, per `checkedMCs`/`respWorking`), the
model ids of the checks are exactly the ranked candidates in check order,
`working_models`/`failing_models` are the corresponding disjoint partition,
and `model_used` is the first working model, else the `ChooseModel` fallback
— an element of the discovered list, hence non-empty whenever no discovered
id is itself the empty string. -/
theorem claim_modelcheck_partition :
    (∀ pid pname key lu cu pref eh send cancel,
      key ≠ "" →
      ExtractModelIds (send 0).bodyJson ≠ [] →
      (∀ k, k < (TopCandidates (ExtractModelIds (send 0).bodyJson) pref 8).length →
        cancel k = false) →
      (AuditOpenAICompatible pid pname key lu cu pref eh send cancel).model_checks.map
          (fun c => c.model) =
        TopCandidates (ExtractModelIds (send 0).bodyJson) pref 8 ∧
      (AuditOpenAICompatible pid pname key lu cu pref eh send cancel).model_checks =
        checkedMCs send ExtractOpenAIText
          (TopCandidates (ExtractModelIds (send 0).bodyJson) pref 8) 1 ∧
      (AuditOpenAICompatible pid pname key lu cu pref eh send cancel).working_models =
        (((AuditOpenAICompatible pid pname key lu cu pref eh send cancel).model_checks).filter
          (fun c => c.working)).map (fun c => c.model) ∧
      (AuditOpenAICompatible pid pname key lu cu pref eh send cancel).failing_models =
        (((AuditOpenAICompatible pid pname key lu cu pref eh send cancel).model_checks).filter
          (fun c => !c.working)).map (fun c => c.model) ∧
      (∀ x ∈ (AuditOpenAICompatible pid pname key lu cu pref eh send cancel).working_models,
        x ∉ (AuditOpenAICompatible pid pname key lu cu pref eh send cancel).failing_models) ∧
      (AuditOpenAICompatible pid pname key lu cu pref eh send cancel).model_used =
        (if (AuditOpenAICompatible pid pname key lu cu pref eh send cancel).working_models.isEmpty
          then ChooseModel (ExtractModelIds (send 0).bodyJson) pref
          else (AuditOpenAICompatible pid pname key lu cu pref eh
            send cancel).working_models.headD "") ∧
      (AuditOpenAICompatible pid pname key lu cu pref eh send cancel).model_used ∈
        ExtractModelIds (send 0).bodyJson ∧
      ("" ∉ ExtractModelIds (send 0).bodyJson →
        (AuditOpenAICompatible pid pname key lu cu pref eh send cancel).model_used ≠ "")) ∧
    (∀ key send cancel,
      key ≠ "" →
      googleDiscovered (send 0).bodyJson ≠ [] →
      (∀ k, k < (TopCandidates (googleDiscovered (send 0).bodyJson)
        googlePreferred 8).length → cancel k = false) →
      (AuditGoogle key send cancel).model_checks.map (fun c => c.model) =
        TopCandidates (googleDiscovered (send 0).bodyJson) googlePreferred 8 ∧
      (AuditGoogle key send cancel).model_checks =
        checkedMCs send ExtractGoogleText
          (TopCandidates (googleDiscovered (send 0).bodyJson) googlePreferred 8) 1 ∧
      (AuditGoogle key send cancel).working_models =
        (((AuditGoogle key send cancel).model_checks).filter
          (fun c => c.working)).map (fun c => c.model) ∧
      (AuditGoogle key send cancel).failing_models =
        (((AuditGoogle key send cancel).model_checks).filter
          (fun c => !c.working)).map (fun c => c.model) ∧
      (∀ x ∈ (AuditGoogle key send cancel).working_models,
        x ∉ (AuditGoogle key send cancel).failing_models) ∧
      (AuditGoogle key send cancel).model_used =
        (if (AuditGoogle key send cancel).working_models.isEmpty
          then ChooseModel (googleDiscovered (send 0).bodyJson) googlePreferred
          else (AuditGoogle key send cancel).working_models.headD "") ∧
      (AuditGoogle key send cancel).model_used ∈ googleDiscovered (send 0).bodyJson ∧
      ("" ∉ googleDiscovered (send 0).bodyJson →
        (AuditGoogle key send cancel).model_used ≠ "")) := by
  constructor
  · intro pid pname key lu cu pref eh send cancel hk hd hc
    have hd' : ¬ (ExtractModelIds (send 0).bodyJson).isEmpty = true := by simpa using hd
    have hc' : ∀ k, k < (TopCandidates (ExtractModelIds (send 0).bodyJson)
        pref 8).length → cancel (0 + k) = false := by
      intro k hkk
      simpa using hc k hkk
    obtain ⟨e1, e2, e3, e4⟩ :=
      openAICore_checks pid pname key lu cu pref eh send cancel 0 0 hk hd' hc'
    simp only [AuditOpenAICompatible]
    have e1' :
        (AuditOpenAICompatibleCore pid pname key lu cu pref eh send cancel
          0 0).1.model_checks =
          checkedMCs send ExtractOpenAIText
            (TopCandidates (ExtractModelIds (send 0).bodyJson) pref 8) 1 := by
      simpa using e1
    have hmap :
        (checkedMCs send ExtractOpenAIText
          (TopCandidates (ExtractModelIds (send 0).bodyJson) pref 8) 1).map
            (fun c => c.model) =
          TopCandidates (ExtractModelIds (send 0).bodyJson) pref 8 :=
      checkedMCs_map_model send ExtractOpenAIText _ 1
    have hnodup : ((checkedMCs send ExtractOpenAIText
        (TopCandidates (ExtractModelIds (send 0).bodyJson) pref 8) 1).map
          (fun c => c.model)).Nodup := by
      rw [hmap]
      exact (topCandidates_inv (ExtractModelIds (send 0).bodyJson) pref 8).1
    have hdisj := workFail_disjoint hnodup
    have hsubset := (topCandidates_inv (ExtractModelIds (send 0).bodyJson) pref 8).2.2
    have hmem : (AuditOpenAICompatibleCore pid pname key lu cu pref eh send cancel
        0 0).1.model_used ∈ ExtractModelIds (send 0).bodyJson := by
      rw [e4]
      split
      · exact chooseModel_mem hd
      · next hne =>
        have hin := headD_mem (l := ((checkedMCs send ExtractOpenAIText
          (TopCandidates (ExtractModelIds (send 0).bodyJson) pref 8) (0 + 1)).filter
            (fun c => c.working)).map (fun c => c.model)) hne
        obtain ⟨c, hcf, hce⟩ := List.mem_map.mp hin
        have hcm : c ∈ checkedMCs send ExtractOpenAIText
            (TopCandidates (ExtractModelIds (send 0).bodyJson) pref 8) (0 + 1) :=
          (List.mem_filter.mp hcf).1
        have : c.model ∈ (checkedMCs send ExtractOpenAIText
            (TopCandidates (ExtractModelIds (send 0).bodyJson) pref 8) (0 + 1)).map
              (fun c => c.model) := List.mem_map.mpr ⟨c, hcm, rfl⟩
        rw [checkedMCs_map_model] at this
        rw [← hce]
        exact hsubset c.model this
    refine ⟨?_, e1', ?_, ?_, ?_, ?_, hmem, fun h0 hne => h0 (by rw [← hne]; exact hmem)⟩
    · rw [e1', hmap]
    · rw [e1']
      simpa using e2
    · rw [e1']
      simpa using e3
    · intro x hx
      rw [show (AuditOpenAICompatibleCore pid pname key lu cu pref eh send cancel
        0 0).1.working_models = _ from e2] at hx
      rw [show (AuditOpenAICompatibleCore pid pname key lu cu pref eh send cancel
        0 0).1.failing_models = _ from e3]
      have hx' : x ∈ ((checkedMCs send ExtractOpenAIText
          (TopCandidates (ExtractModelIds (send 0).bodyJson) pref 8) 1).filter
            (fun c => c.working)).map (fun c => c.model) := by simpa using hx
      have := hdisj x hx'
      simpa using this
    · rw [e4]
      rw [show (AuditOpenAICompatibleCore pid pname key lu cu pref eh send cancel
        0 0).1.working_models = _ from e2]
  · intro key send cancel hk hd hc
    have hd' : ¬ (googleDiscovered (send 0).bodyJson).isEmpty = true := by simpa using hd
    have hc' : ∀ k, k < (TopCandidates (googleDiscovered (send 0).bodyJson)
        googlePreferred 8).length → cancel (0 + k) = false := by
      intro k hkk
      simpa using hc k hkk
    obtain ⟨e1, e2, e3, e4⟩ := googleCore_checks key send cancel 0 0 hk hd' hc'
    simp only [AuditGoogle]
    have e1' : (AuditGoogleCore key send cancel 0 0).1.model_checks =
        checkedMCs send ExtractGoogleText
          (TopCandidates (googleDiscovered (send 0).bodyJson) googlePreferred 8) 1 := by
      simpa using e1
    have hmap : (checkedMCs send ExtractGoogleText
        (TopCandidates (googleDiscovered (send 0).bodyJson) googlePreferred 8) 1).map
          (fun c => c.model) =
        TopCandidates (googleDiscovered (send 0).bodyJson) googlePreferred 8 :=
      checkedMCs_map_model send ExtractGoogleText _ 1
    have hnodup : ((checkedMCs send ExtractGoogleText
        (TopCandidates (googleDiscovered (send 0).bodyJson) googlePreferred 8) 1).map
          (fun c => c.model)).Nodup := by
      rw [hmap]
      exact (topCandidates_inv (googleDiscovered (send 0).bodyJson) googlePreferred 8).1
    have hdisj := workFail_disjoint hnodup
    have hsubset :=
      (topCandidates_inv (googleDiscovered (send 0).bodyJson) googlePreferred 8).2.2
    have hmem : (AuditGoogleCore key send cancel 0 0).1.model_used ∈
        googleDiscovered (send 0).bodyJson := by
      rw [e4]
      split
      · exact chooseModel_mem hd
      · next hne =>
        have hin := headD_mem (l := ((checkedMCs send ExtractGoogleText
          (TopCandidates (googleDiscovered (send 0).bodyJson) googlePreferred 8)
            (0 + 1)).filter (fun c => c.working)).map (fun c => c.model)) hne
        obtain ⟨c, hcf, hce⟩ := List.mem_map.mp hin
        have hcm : c ∈ checkedMCs send ExtractGoogleText
            (TopCandidates (googleDiscovered (send 0).bodyJson) googlePreferred 8)
              (0 + 1) := (List.mem_filter.mp hcf).1
        have : c.model ∈ (checkedMCs send ExtractGoogleText
            (TopCandidates (googleDiscovered (send 0).bodyJson) googlePreferred 8)
              (0 + 1)).map (fun c => c.model) := List.mem_map.mpr ⟨c, hcm, rfl⟩
        rw [checkedMCs_map_model] at this
        rw [← hce]
        exact hsubset c.model this
    refine ⟨?_, e1', ?_, ?_, ?_, ?_, hmem, fun h0 hne => h0 (by rw [← hne]; exact hmem)⟩
    · rw [e1', hmap]
    · rw [e1']
      simpa using e2
    · rw [e1']
      simpa using e3
    · intro x hx
      rw [show (AuditGoogleCore key send cancel 0 0).1.working_models = _ from e2] at hx
      rw [show (AuditGoogleCore key send cancel 0 0).1.failing_models = _ from e3]
      have hx' : x ∈ ((checkedMCs send ExtractGoogleText
          (TopCandidates (googleDiscovered (send 0).bodyJson) googlePreferred 8) 1).filter
            (fun c => c.working)).map (fun c => c.model) := by simpa using hx
      have := hdisj x hx'
      simpa using this
    · rw [e4]
      rw [show (AuditGoogleCore key send cancel 0 0).1.working_models = _ from e2]

/-- A Sender whose every response lists one model `m1` (OpenAI `data` shape). -/
def cexSend : Nat → HttpResponse := fun _ =>
  { status := 200, latency_ms := 5,
    bodyJson := .obj (.cons "data" (.arr (.cons (.str "m1") .nil)) .nil) }

/-- C10 (counterexample): with the cancellation flag already set, a run that
reaches the model-check phase with non-empty discovery returns early with NO
model checks and an EMPTY `model_used`, refuting "model_used ... is therefore
non-empty whenever discovery was non-empty" as the claim states it. -/
theorem claim_modelcheck_counterexample :
    (AuditOpenAICompatible "openrouter" "OpenRouter" "k" "lu" "cu" ["m1"] []
      cexSend (fun _ => true)).model_used = "" ∧
    ExtractModelIds (cexSend 0).bodyJson ≠ [] ∧
    (AuditOpenAICompatible "openrouter" "OpenRouter" "k" "lu" "cu" ["m1"] []
      cexSend (fun _ => true)).model_checks.length = 0 := by decide

/-- The list response of the witness Sender. -/
def wList : HttpResponse :=
  { status := 200, latency_ms := 1,
    bodyJson := .obj (.cons "data" (.arr (.cons (.str "m1") .nil)) .nil) }

/-- The chat response of the witness Sender (a working OpenAI answer). -/
def wChat : HttpResponse :=
  { status := 200, latency_ms := 1,
    bodyJson := .obj (.cons "choices" (.arr (.cons (.obj
      (.cons "message" (.obj (.cons "content" (.str "OK") .nil)) .nil)) .nil)) .nil) }

/-- The witness Sender: the list response first, then chat responses. -/
def wSend : Nat → HttpResponse := fun i => if i = 0 then wList else wChat

/-- C10 (witness): the amended statement applied at a concrete uncancelled
run — the chosen model is one of the discovered ids. -/
theorem claim_modelcheck_witness :
    (AuditOpenAICompatible "x" "X" "k" "lu" "cu" [] [] wSend
      (fun _ => false)).model_used ∈ ExtractModelIds (wSend 0).bodyJson :=
  (claim_modelcheck_partition.1 "x" "X" "k" "lu" "cu" [] [] wSend (fun _ => false)
    (by decide) (by decide) (fun k _ => rfl)).2.2.2.2.2.2.1

/-- Once an orchestrator check has seen the (monotone) flag set, the guarded
sequence appends nothing further, and the flag stays set at the end. -/
theorem foldl_runGuarded_frozen (cancel : Nat → Bool) (hmono : CancelMonotone cancel) :
    ∀ (rs : List (Nat → Nat → ProviderAudit × Nat × Nat)) (st : RunSt),
    cancel st.ci = true →
    ((rs.foldl (runGuarded cancel) st).providers = st.providers ∧
     cancel (rs.foldl (runGuarded cancel) st).ci = true)
  | [], _, h => ⟨rfl, h⟩
  | r :: rest, st, h => by
    simp only [List.foldl_cons, runGuarded, h, if_true]
    exact foldl_runGuarded_frozen cancel hmono rest _
      (hmono st.ci (st.ci + 1) (by omega) h)

/-- Under a monotone flag, the guarded provider sequence leaves exactly the
providers of an unguarded prefix run, and if the prefix is proper the flag is
set at the end. -/
theorem foldl_runGuarded_prefix (cancel : Nat → Bool) (hmono : CancelMonotone cancel) :
    ∀ (rs : List (Nat → Nat → ProviderAudit × Nat × Nat)) (st : RunSt),
    ∃ m, m ≤ rs.length ∧
      (rs.foldl (runGuarded cancel) st).providers = (runAll st (rs.take m)).providers ∧
      (m < rs.length → cancel (rs.foldl (runGuarded cancel) st).ci = true)
  | [], st => ⟨0, by simp, rfl, fun h => absurd h (by simp)⟩
  | r :: rest, st => by
    by_cases h : cancel st.ci = true
    · obtain ⟨hp, hcfin⟩ := foldl_runGuarded_frozen cancel hmono (r :: rest) st h
      exact ⟨0, by simp, by simpa [runAll] using hp, fun _ => hcfin⟩
    · have h' : cancel st.ci = false := by simpa using h
      obtain ⟨m, hm, hp, hcf⟩ := foldl_runGuarded_prefix cancel hmono rest
        { providers := st.providers ++ [(r st.ri (st.ci + 1)).1],
          ri := (r st.ri (st.ci + 1)).2.1, ci := (r st.ri (st.ci + 1)).2.2 }
      refine ⟨m + 1, by simpa using Nat.succ_le_succ hm, ?_, ?_⟩
      · simp only [List.foldl_cons, runGuarded, h', Bool.false_eq_true, if_false]
        rw [hp]
        simp [runAll, List.take_succ_cons]
      · intro hlt
        have hlt' : m < rest.length := by
          simp only [List.length_cons] at hlt
          omega
        have hc := hcf hlt'
        simpa only [List.foldl_cons, runGuarded, h', Bool.false_eq_true,
          if_false] using hc

/-- C5: with the cancellation flag already set before any provider starts,
the orchestrator returns an empty provider list and logs the early
cancellation; more generally, under a monotone flag the returned provider
list is exactly an unguarded prefix of the provider sequence (once a check
sees the flag, no further provider is launched, and the report built so far
is returned), with the ended-early log line present whenever the prefix is
proper. -/
theorem claim_run_cancellation (keys : List (String × String))
    (send : Nat → HttpResponse) (cancel : Nat → Bool)
    (hmono : CancelMonotone cancel) :
    (cancel 0 = true →
      (AuditEngineRun keys send cancel).providers = [] ∧
      "Audit canceled before start." ∈ (AuditEngineRun keys send cancel).run_logs) ∧
    (cancel 0 = false →
      ∃ m, m ≤ 10 ∧
        (AuditEngineRun keys send cancel).providers =
          (runAll { providers := [(openrouterRunner keys send cancel 0 1).1],
                    ri := (openrouterRunner keys send cancel 0 1).2.1,
                    ci := (openrouterRunner keys send cancel 0 1).2.2 }
            ((providerRunners keys send cancel).take m)).providers ∧
        (m < 10 → "Audit ended early due to cancellation request." ∈
          (AuditEngineRun keys send cancel).run_logs)) := by
  constructor
  · intro h0
    simp [AuditEngineRun, h0]
  · intro h0
    obtain ⟨m, hm, hp, hcf⟩ := foldl_runGuarded_prefix cancel hmono
      (providerRunners keys send cancel)
      { providers := [(openrouterRunner keys send cancel 0 1).1],
        ri := (openrouterRunner keys send cancel 0 1).2.1,
        ci := (openrouterRunner keys send cancel 0 1).2.2 }
    have hlen : (providerRunners keys send cancel).length = 10 := rfl
    rw [hlen] at hm hcf
    refine ⟨m, hm, ?_, ?_⟩
    · simp only [AuditEngineRun, h0, Bool.false_eq_true, if_false]
      try dsimp only
      exact hp
    · intro hlt
      have hc := hcf hlt
      simp only [AuditEngineRun, h0, Bool.false_eq_true, if_false]
      try dsimp only
      simp [hc]

/-- C5 (witness): the flag-set-before-start clause applied at a concrete
always-cancelled run. -/
theorem claim_run_cancellation_witness :
    (AuditEngineRun [] (fun _ => {}) (fun _ => true)).providers = [] ∧
    "Audit canceled before start." ∈
      (AuditEngineRun [] (fun _ => {}) (fun _ => true)).run_logs :=
  (claim_run_cancellation [] (fun _ => {}) (fun _ => true) (fun _ _ _ h => h)).1 rfl
